import Mathlib

/-!
# Verification of the LS-8 CPU emulator (`ls8/cpu.py`)

A shallow embedding of the emulator in Lean 4.  Python's unbounded integers
are modelled by `Int`; Python list indexing (with its negative-index wrap and
`IndexError` on out-of-range access) is modelled by `pyIndex`/`pyGet`/`pySet`;
code that can raise becomes `Except String`, the string naming the Python
exception class (or, for `alu`, the exception's message).
-/

/-- The mutable state of the `CPU` class: register file, RAM, program counter,
instruction register, flags register and the running flag.  (`mar`/`mdr` are
initialized in the source but never read or written afterwards, so they are
omitted.)  Register values and RAM cells are plain Python ints, hence `Int`.
The flags register is only ever written by `_cmp` via `&= 0xF8` / `|=` starting
from `0`, so it can never become negative and is modelled as `Nat`. -/
structure CPU where
  reg : List Int
  ram : List Int
  pc : Int
  ir : Int
  fl : Nat
  running : Bool
  deriving Repr, DecidableEq

deriving instance DecidableEq for Except

/-- Python list-index resolution for a list of length `n`: an index
`0 ≤ i < n` is used directly, `-n ≤ i < 0` counts from the end, anything
else raises `IndexError` (here: `none`). -/
def pyIndex (n : Nat) (i : Int) : Option Nat :=
  if 0 ≤ i ∧ i < (n : Int) then some i.toNat
  else if i < 0 ∧ 0 ≤ i + (n : Int) then some (i + (n : Int)).toNat
  else none

/-- Python `l[i]` (read). -/
def pyGet (l : List Int) (i : Int) : Option Int :=
  (pyIndex l.length i).bind fun j => l.get? j

/-- Python `l[i] = v`. -/
def pySet (l : List Int) (i : Int) (v : Int) : Option (List Int) :=
  (pyIndex l.length i).map fun j => l.set j v

/-- `l[i]` in the `Except` monad: failure is an `IndexError`. -/
def pyGetE (l : List Int) (i : Int) : Except String Int :=
  match pyGet l i with
  | some v => .ok v
  | none => .error "IndexError"

/-- `self.reg[i] = v`. -/
def setRegE (s : CPU) (i : Int) (v : Int) : Except String CPU :=
  match pySet s.reg i v with
  | some l => .ok { s with reg := l }
  | none => .error "IndexError"

/-- `def ram_read(self, address): return self.ram[address]` -/
def ram_read (s : CPU) (address : Int) : Except String Int :=
  pyGetE s.ram address

/-- `def ram_write(self, address, value): self.ram[address] = value` -/
def ram_write (s : CPU) (address : Int) (value : Int) : Except String CPU :=
  match pySet s.ram address value with
  | some l => .ok { s with ram := l }
  | none => .error "IndexError"

/-- The value computed by the two clamp lines of `handle_overflow` (and by the
two PC-clamp lines at the end of each `run` cycle): a negative value becomes
`0xFF`, then a value above 255 becomes `0x00`. -/
def clampVal (v : Int) : Int :=
  if (if 0 ≤ v then v else 0xFF) ≤ 255 then (if 0 ≤ v then v else 0xFF) else 0

/-- `def handle_overflow(self, r)`: two read-modify-write lines on
`self.reg[r]`.  Note the argument `r` is used as a *register index*. -/
def handle_overflow (r : Int) (s : CPU) : Except String CPU := do
  let a ← pyGetE s.reg r
  let s1 ← setRegE s r (if 0 ≤ a then a else 0xFF)
  let b ← pyGetE s1.reg r
  setRegE s1 r (if b ≤ 255 then b else 0)

/-! ## Opcode handlers -/

/-- `def _hlt(self): self.running = False` -/
def op_hlt (s : CPU) : Except String CPU :=
  .ok { s with running := false }

/-- `def _ld(self, ra, rb): self.reg[ra] = self.ram_read(self.reg[rb])` -/
def op_ld (ra rb : Int) (s : CPU) : Except String CPU := do
  let addr ← pyGetE s.reg rb
  let v ← ram_read s addr
  setRegE s ra v

/-- `def _ldi(self, r, i): self.reg[r] = i` -/
def op_ldi (r i : Int) (s : CPU) : Except String CPU :=
  setRegE s r i

/-- `def _nop(self): pass` -/
def op_nop (s : CPU) : Except String CPU :=
  .ok s

/-- `def _pop(self, r)`: `reg[r] = ram[reg[7]]; reg[7] += 1; handle_overflow(7)` -/
def op_pop (r : Int) (s : CPU) : Except String CPU := do
  let sp ← pyGetE s.reg 7
  let v ← ram_read s sp
  let s1 ← setRegE s r v
  let sp1 ← pyGetE s1.reg 7
  let s2 ← setRegE s1 7 (sp1 + 1)
  handle_overflow 7 s2

/-- `def _prn(self, r): print(self.reg[r])` — the printing itself is I/O and
out of scope; the handler reads `reg[r]` (which can raise) and leaves the
state unchanged. -/
def op_prn (r : Int) (s : CPU) : Except String CPU := do
  let _ ← pyGetE s.reg r
  .ok s

/-- `def _push(self, r)`: `reg[7] -= 1; handle_overflow(7); ram_write(reg[7], reg[r])` -/
def op_push (r : Int) (s : CPU) : Except String CPU := do
  let sp ← pyGetE s.reg 7
  let s1 ← setRegE s 7 (sp - 1)
  let s2 ← handle_overflow 7 s1
  let sp2 ← pyGetE s2.reg 7
  let v ← pyGetE s2.reg r
  ram_write s2 sp2 v

/-- `def _call(self, r)`: `reg[7] -= 1; handle_overflow(7); ram_write(reg[7], pc + 2); pc = reg[r]` -/
def op_call (r : Int) (s : CPU) : Except String CPU := do
  let sp ← pyGetE s.reg 7
  let s1 ← setRegE s 7 (sp - 1)
  let s2 ← handle_overflow 7 s1
  let sp2 ← pyGetE s2.reg 7
  let s3 ← ram_write s2 sp2 (s2.pc + 2)
  let v ← pyGetE s3.reg r
  .ok { s3 with pc := v }

/-- `def _jeq(self, r)`: jump to `reg[r]` when `fl & 0b1` is nonzero, else `pc += 2`. -/
def op_jeq (r : Int) (s : CPU) : Except String CPU :=
  if s.fl &&& 1 ≠ 0 then do
    let v ← pyGetE s.reg r
    .ok { s with pc := v }
  else
    .ok { s with pc := s.pc + 2 }

/-- `def _jge(self, r)`: jump when `fl & 0b11` is nonzero, else `pc += 2`. -/
def op_jge (r : Int) (s : CPU) : Except String CPU :=
  if s.fl &&& 3 ≠ 0 then do
    let v ← pyGetE s.reg r
    .ok { s with pc := v }
  else
    .ok { s with pc := s.pc + 2 }

/-- `def _jgt(self, r)`: jump when `fl & 0b10` is nonzero, else `pc += 2`. -/
def op_jgt (r : Int) (s : CPU) : Except String CPU :=
  if s.fl &&& 2 ≠ 0 then do
    let v ← pyGetE s.reg r
    .ok { s with pc := v }
  else
    .ok { s with pc := s.pc + 2 }

/-- `def _jle(self, r)`: jump when `fl & 0b101` is nonzero, else `pc += 2`. -/
def op_jle (r : Int) (s : CPU) : Except String CPU :=
  if s.fl &&& 5 ≠ 0 then do
    let v ← pyGetE s.reg r
    .ok { s with pc := v }
  else
    .ok { s with pc := s.pc + 2 }

/-- `def _jlt(self, r)`: jump when `fl & 0b100` is nonzero, else `pc += 2`. -/
def op_jlt (r : Int) (s : CPU) : Except String CPU :=
  if s.fl &&& 4 ≠ 0 then do
    let v ← pyGetE s.reg r
    .ok { s with pc := v }
  else
    .ok { s with pc := s.pc + 2 }

/-- `def _jmp(self, r): self.pc = self.reg[r]` -/
def op_jmp (r : Int) (s : CPU) : Except String CPU := do
  let v ← pyGetE s.reg r
  .ok { s with pc := v }

/-- `def _jne(self, r)`: when `fl & 0b1` is nonzero `pc += 2`, else jump to `reg[r]`. -/
def op_jne (r : Int) (s : CPU) : Except String CPU :=
  if s.fl &&& 1 ≠ 0 then
    .ok { s with pc := s.pc + 2 }
  else do
    let v ← pyGetE s.reg r
    .ok { s with pc := v }

/-- `def _ret(self)`: `pc = ram[reg[7]]; reg[7] += 1; handle_overflow(7)` -/
def op_ret (s : CPU) : Except String CPU := do
  let sp ← pyGetE s.reg 7
  let v ← ram_read s sp
  let s1 : CPU := { s with pc := v }
  let sp1 ← pyGetE s1.reg 7
  let s2 ← setRegE s1 7 (sp1 + 1)
  handle_overflow 7 s2

/-- `def _add(self, ra, rb): self.reg[ra] += self.reg[rb]` -/
def op_add (ra rb : Int) (s : CPU) : Except String CPU := do
  let va ← pyGetE s.reg ra
  let vb ← pyGetE s.reg rb
  setRegE s ra (va + vb)

/-- `def _and(self, ra, rb): self.reg[ra] &= self.reg[rb]` — Python's `&` on
unbounded ints is two's-complement bitwise and, i.e. `Int.land`. -/
def op_and (ra rb : Int) (s : CPU) : Except String CPU := do
  let va ← pyGetE s.reg ra
  let vb ← pyGetE s.reg rb
  setRegE s ra (Int.land va vb)

/-- `def _cmp(self, ra, rb)`: `fl &= 0xF8`, then set the Equal bit `0x01` if
`reg[ra] == reg[rb]`, else the Less-than bit `0x04` if `<`, else the
Greater-than bit `0x02` if `>`. -/
def op_cmp (ra rb : Int) (s : CPU) : Except String CPU := do
  let va ← pyGetE s.reg ra
  let vb ← pyGetE s.reg rb
  let fl1 := s.fl &&& 0xF8
  if va = vb then
    .ok { s with fl := fl1 ||| 0x01 }
  else if va < vb then
    .ok { s with fl := fl1 ||| 0x04 }
  else
    .ok { s with fl := fl1 ||| 0x02 }

/-- `def _dec(self, ra): self.reg[ra] -= 1; self.handle_overflow(self.reg[ra])`
— note the source passes the decremented *value* `self.reg[ra]` to
`handle_overflow`, which uses its argument as a register *index*. -/
def op_dec (ra : Int) (s : CPU) : Except String CPU := do
  let v ← pyGetE s.reg ra
  let s1 ← setRegE s ra (v - 1)
  let v1 ← pyGetE s1.reg ra
  handle_overflow v1 s1

/-- `def _inc(self, ra): self.reg[ra] += 1; self.handle_overflow(self.reg[ra])`
— as in `_dec`, the incremented *value* is passed as the index. -/
def op_inc (ra : Int) (s : CPU) : Except String CPU := do
  let v ← pyGetE s.reg ra
  let s1 ← setRegE s ra (v + 1)
  let v1 ← pyGetE s1.reg ra
  handle_overflow v1 s1

/-- `def _mul(self, ra, rb): self.reg[ra] *= self.reg[rb]` -/
def op_mul (ra rb : Int) (s : CPU) : Except String CPU := do
  let va ← pyGetE s.reg ra
  let vb ← pyGetE s.reg rb
  setRegE s ra (va * vb)

/-- `def alu(self, op, reg_a, reg_b)`: pattern-match on the operation name;
`"ADD"` does `reg[reg_a] += reg[reg_b]`, anything else raises
`Exception("Unsupported ALU operation")`. -/
def alu (op : String) (reg_a reg_b : Int) (s : CPU) : Except String CPU :=
  if op = "ADD" then do
    let va ← pyGetE s.reg reg_a
    let vb ← pyGetE s.reg reg_b
    setRegE s reg_a (va + vb)
  else
    .error "Unsupported ALU operation"

/-- The fresh state built by `CPU.__init__`: 8 registers all zero except
`reg[7] = 0xF4`, 256 zero RAM cells, `pc = ir = fl = 0`, not running. -/
def initCPU : CPU :=
  { reg := [0, 0, 0, 0, 0, 0, 0, 0xF4]
    ram := List.replicate 256 0
    pc := 0
    ir := 0
    fl := 0
    running := false }

/-- Well-formedness of a state's storage shape: 8 registers, 256 RAM cells. -/
def WF (s : CPU) : Prop := s.reg.length = 8 ∧ s.ram.length = 256

/-! ## Opcode constants and the dispatch table

The source names both the module-level opcode constants and the handler
methods `_hlt`, `_ldi`, …; here the constants get an `opc` prefix and the
handlers an `op` prefix. -/

def opc_hlt : Int := 0x01
def opc_ld : Int := 0x83
def opc_ldi : Int := 0x82
def opc_nop : Int := 0x00
def opc_pop : Int := 0x46
def opc_prn : Int := 0x47
def opc_push : Int := 0x45
def opc_call : Int := 0x50
def opc_jeq : Int := 0x55
def opc_jge : Int := 0x5A
def opc_jgt : Int := 0x57
def opc_jlt : Int := 0x58
def opc_jle : Int := 0x59
def opc_jmp : Int := 0x54
def opc_jne : Int := 0x56
def opc_ret : Int := 0x11
def opc_add : Int := 0xA0
def opc_and : Int := 0xA8
def opc_cmp : Int := 0xA7
def opc_dec : Int := 0x66
def opc_inc : Int := 0x65
def opc_mul : Int := 0xA2

/-- A registered handler, tagged by the number of operand parameters it
accepts (the Python methods take 0, 1 or 2 operands besides `self`). -/
inductive OpHandler where
  | h0 (f : CPU → Except String CPU)
  | h1 (f : Int → CPU → Except String CPU)
  | h2 (f : Int → Int → CPU → Except String CPU)

/-- The number of operand parameters a handler accepts. -/
def OpHandler.arity : OpHandler → Nat
  | .h0 _ => 0
  | .h1 _ => 1
  | .h2 _ => 2

/-- The `self.op_table` dictionary built in `CPU.__init__`, as a key/value
association list. -/
def op_table : List (Int × OpHandler) :=
  [ (opc_hlt, .h0 op_hlt),
    (opc_ld, .h2 op_ld),
    (opc_ldi, .h2 op_ldi),
    (opc_nop, .h0 op_nop),
    (opc_pop, .h1 op_pop),
    (opc_prn, .h1 op_prn),
    (opc_push, .h1 op_push),
    (opc_call, .h1 op_call),
    (opc_jeq, .h1 op_jeq),
    (opc_jge, .h1 op_jge),
    (opc_jgt, .h1 op_jgt),
    (opc_jle, .h1 op_jle),
    (opc_jlt, .h1 op_jlt),
    (opc_jmp, .h1 op_jmp),
    (opc_jne, .h1 op_jne),
    (opc_ret, .h0 op_ret),
    (opc_add, .h2 op_add),
    (opc_and, .h2 op_and),
    (opc_cmp, .h2 op_cmp),
    (opc_dec, .h1 op_dec),
    (opc_inc, .h1 op_inc),
    (opc_mul, .h2 op_mul) ]

/-- `self.op_table[key]`: dictionary lookup by key equality; a missing key
raises `KeyError`. -/
def opLookup (key : Int) : Except String OpHandler :=
  match op_table.find? fun p => p.1 == key with
  | some p => .ok p.2
  | none => .error "KeyError"

/-- `self.op_table[self.ir](*args)`: unpacking the operand list into the
handler's parameters; a length/arity mismatch is Python's `TypeError`. -/
def applyHandler (h : OpHandler) (args : List Int) (s : CPU) : Except String CPU :=
  match h, args with
  | .h0 f, [] => f s
  | .h1 f, [a] => f a s
  | .h2 f, [a, b] => f a b s
  | _, _ => .error "TypeError"

/-- `[self.ram_read(self.pc + i + 1) for i in range(operands)]` starting at
offset `i`: reads left to right, stopping at the first `IndexError`. -/
def fetchFrom (ram : List Int) (pc : Int) (i : Nat) : Nat → Except String (List Int)
  | 0 => .ok []
  | n + 1 => do
    let v ← pyGetE ram (pc + i + 1)
    let rest ← fetchFrom ram pc (i + 1) n
    .ok (v :: rest)

/-- The operand list of the current instruction (`i` ranges over
`range(operands)`). -/
def fetchArgs (ram : List Int) (pc : Int) (n : Nat) : Except String (List Int) :=
  fetchFrom ram pc 0 n

/-- One iteration of the `while self.running` body of `CPU.run`:
fetch `ir = ram[pc]`; decode `operands = ir >> 6` and
`sets_pc = (ir & 0x10) >> 4` (on Python's unbounded ints `x >> k` is floor
division by `2^k` and `(x & 0x10) >> 4` is bit 4 of the two's complement,
i.e. `(x / 16) % 2` with floor division — `Int.ediv`/`Int.emod` coincide with
those for this positive divisor); fetch the operand bytes; look up and apply
the handler; then, unless the instruction was HLT, advance the PC by
`1 + len(args)` when `sets_pc` is falsy; finally clamp the PC with the same
two lines as `handle_overflow`. -/
def step (s0 : CPU) : Except String CPU := do
  let ir ← ram_read s0 s0.pc
  let s := { s0 with ir := ir }
  let operands : Int := Int.ediv ir 64
  let sets_pc : Int := Int.emod (Int.ediv ir 16) 2
  let args ← fetchArgs s.ram s.pc operands.toNat
  let h ← opLookup ir
  let s1 ← applyHandler h args s
  let s2 := if ir ≠ opc_hlt then
      { s1 with pc := s1.pc + (if sets_pc ≠ 0 then 0 else 1 + (args.length : Int)) }
    else s1
  .ok { s2 with pc := clampVal s2.pc }

/-- The `while self.running` loop of `CPU.run`, driven by a fuel parameter:
`runFuel 0` returns the state still mid-run; otherwise the loop checks
`running`, exits normally when it is false, and propagates any exception
raised by the cycle body. -/
def runFuel : Nat → CPU → Except String CPU
  | 0, s => .ok s
  | n + 1, s =>
    if s.running then (step s).bind (runFuel n) else .ok s

/-! ## Program loading (`CPU.load`)

`load` reads a file, keeps the lines whose first character is `'0'` or `'1'`,
parses `int(line[:8], 2)` for each, and writes the parsed bytes to RAM at
addresses 0, 1, 2, …  An empty line raises `IndexError` at `line[0]`; a kept
line whose first 8 characters are not a binary literal raises `ValueError`.
`intBin` models `int(s, 2)` for the inputs reachable here (first character a
binary digit): leading/trailing whitespace is tolerated, the digit run is
read as base 2.  (Python would additionally accept `_` digit separators;
such lines are modelled as a parse failure.) -/

def isPySpace (c : Char) : Bool :=
  c = ' ' ∨ c = '\t' ∨ c = '\n' ∨ c = '\r' ∨ c = '\x0b' ∨ c = '\x0c'

def binDigit (c : Char) : Bool := c = '0' ∨ c = '1'

def intBin (cs : List Char) : Option Int :=
  let digs := cs.takeWhile binDigit
  let rest := cs.drop digs.length
  if digs ≠ [] ∧ rest.all isPySpace then
    some (digs.foldl (fun acc c => 2 * acc + (if c = '1' then 1 else 0)) 0)
  else none

/-- The line-filtering loop of `load`: keep `int(line[:8], 2)` of every line
whose first character is `'0'` or `'1'`. `none` models a raised exception. -/
def parseLines : List (List Char) → Option (List Int)
  | [] => some []
  | [] :: _ => none
  | (c :: cs) :: rest =>
    if binDigit c then
      match intBin ((c :: cs).take 8) with
      | none => none
      | some v => (parseLines rest).map (v :: ·)
    else parseLines rest

/-- `for instruction in program: self.ram[address] = instruction; address += 1` -/
def loadLoop : List Int → Int → List Int → Option (List Int)
  | [], _, ram => some ram
  | v :: rest, address, ram =>
    match pySet ram address v with
    | some ram2 => loadLoop rest (address + 1) ram2
    | none => none

/-- Loading a parsed program into the fresh 256-cell zero RAM. -/
def loadProgram (program : List Int) : Option (List Int) :=
  loadLoop program 0 (List.replicate 256 0)

/-! ## Basic facts about the embedding primitives -/

lemma exbind_ok {α β : Type} (a : α) (g : α → Except String β) :
    (Except.ok a >>= g) = g a := rfl

lemma exbind_error {α β : Type} (e : String) (g : α → Except String β) :
    ((Except.error e : Except String α) >>= g) = .error e := rfl

lemma pyIndex_valid {n : Nat} {i : Int} (h0 : 0 ≤ i) (h1 : i < (n : Int)) :
    pyIndex n i = some i.toNat := by
  unfold pyIndex
  rw [if_pos ⟨h0, h1⟩]

lemma pyGet_valid {l : List Int} {i : Int} (h0 : 0 ≤ i) (h1 : i < (l.length : Int)) :
    pyGet l i = l.get? i.toNat := by
  unfold pyGet
  rw [pyIndex_valid h0 h1]
  rfl

lemma pySet_valid {l : List Int} (v : Int) {i : Int} (h0 : 0 ≤ i)
    (h1 : i < (l.length : Int)) :
    pySet l i v = some (l.set i.toNat v) := by
  unfold pySet
  rw [pyIndex_valid h0 h1]
  rfl

lemma pyGetE_ok {l : List Int} {i v : Int} (h : pyGet l i = some v) :
    pyGetE l i = .ok v := by
  unfold pyGetE
  rw [h]

lemma setRegE_ok {s : CPU} {i v : Int} {l : List Int} (h : pySet s.reg i v = some l) :
    setRegE s i v = .ok { s with reg := l } := by
  unfold setRegE
  rw [h]

lemma ram_write_ok {s : CPU} {a v : Int} {l : List Int} (h : pySet s.ram a v = some l) :
    ram_write s a v = .ok { s with ram := l } := by
  unfold ram_write
  rw [h]

lemma clampVal_nonneg (v : Int) : 0 ≤ clampVal v := by
  unfold clampVal
  split_ifs <;> omega

lemma clampVal_le (v : Int) : clampVal v ≤ 255 := by
  unfold clampVal
  split_ifs <;> omega

lemma clampVal_of_mem {v : Int} (h0 : 0 ≤ v) (h1 : v ≤ 255) : clampVal v = v := by
  unfold clampVal
  split_ifs <;> omega

/-- The flags update of `_cmp` followed by a conditional-jump mask: the bits
above the comparison field never leak into the low three bits. -/
lemma land_lor_mask (x k m : Nat) (hm : m < 8) :
    ((x &&& 248) ||| k) &&& m = k &&& m := by
  apply Nat.eq_of_testBit_eq
  intro i
  simp only [Nat.testBit_land, Nat.testBit_lor]
  by_cases hi : i < 3
  · have h248 : (248 : Nat).testBit i = false := by
      interval_cases i <;> decide
    simp [h248]
  · have hm2 : m.testBit i = false := by
      apply Nat.testBit_lt_two_pow
      have h1 : (2 : Nat) ^ 3 ≤ 2 ^ i := Nat.pow_le_pow_right (by norm_num) (by omega)
      omega
    simp [hm2]

/-- `handle_overflow` at a valid nonnegative register index `j` replaces
`reg[j]` by its clamped value. -/
lemma handle_overflow_valid {s : CPU} {j v : Int} (h0 : 0 ≤ j)
    (h1 : j < (s.reg.length : Int)) (hv : pyGet s.reg j = some v) :
    handle_overflow j s = .ok { s with reg := s.reg.set j.toNat (clampVal v) } := by
  have hjlt : j.toNat < s.reg.length := by omega
  unfold handle_overflow
  rw [pyGetE_ok hv, exbind_ok,
    setRegE_ok (pySet_valid (if 0 ≤ v then v else 0xFF) h0 h1), exbind_ok]
  have hlen1 : (s.reg.set j.toNat (if 0 ≤ v then v else 0xFF)).length = s.reg.length :=
    List.length_set ..
  have hget1 : pyGet (s.reg.set j.toNat (if 0 ≤ v then v else 0xFF)) j
      = some (if 0 ≤ v then v else 0xFF) := by
    rw [pyGet_valid h0 (by rw [hlen1]; exact h1)]
    exact List.get?_set_eq_of_lt _ hjlt
  rw [pyGetE_ok hget1, exbind_ok,
    setRegE_ok (pySet_valid _ h0 (by rw [hlen1]; exact h1))]
  rw [List.set_set]
  have hclamp : (if (if 0 ≤ v then v else 0xFF) ≤ 255 then (if 0 ≤ v then v else 0xFF) else 0)
      = clampVal v := by
    unfold clampVal
    split_ifs <;> omega
  rw [hclamp]

/-! ## Postcondition and exception-classification combinators -/

/-- Every successful outcome of `m` satisfies `P`. -/
def POk {α : Type} (P : α → Prop) (m : Except String α) : Prop :=
  ∀ a, m = .ok a → P a

lemma pok_mono {α : Type} {P R : α → Prop} (h : ∀ a, P a → R a) {m : Except String α}
    (hm : POk P m) : POk R m :=
  fun a ha => h a (hm a ha)

lemma pok_ok {α : Type} {P : α → Prop} {a : α} (h : P a) : POk P (.ok a) := by
  intro b hb
  cases hb
  exact h

lemma pok_error {α : Type} (P : α → Prop) (e : String) :
    POk P (.error e : Except String α) := by
  intro b hb
  cases hb

lemma pok_bindv {α β : Type} {x : Except String α} {g : α → Except String β}
    {P : β → Prop} (h : ∀ a, POk P (g a)) : POk P (x >>= g) := by
  cases x with
  | error e => exact pok_error P e
  | ok a => exact h a

lemma pok_binds {β : Type} {x : Except String CPU} {g : CPU → Except String β}
    {P : β → Prop} {Q : CPU → Prop} (hx : POk Q x) (h : ∀ a, Q a → POk P (g a)) :
    POk P (x >>= g) := by
  cases x with
  | error e => exact pok_error P e
  | ok a => exact h a (hx a rfl)

/-- Every exception of `m` is one of `es`. -/
def ErrIn {α : Type} (es : List String) (m : Except String α) : Prop :=
  ∀ e, m = .error e → e ∈ es

lemma errin_ok {α : Type} (es : List String) (a : α) : ErrIn es (.ok a) := by
  intro e he
  cases he

lemma errin_error {α : Type} {es : List String} {e : String} (h : e ∈ es) :
    ErrIn es (.error e : Except String α) := by
  intro e2 he
  cases he
  exact h

lemma errin_bind {α β : Type} {es : List String} {x : Except String α}
    {g : α → Except String β} (hx : ErrIn es x) (h : ∀ a, ErrIn es (g a)) :
    ErrIn es (x >>= g) := by
  cases x with
  | error e => exact fun e2 he => by cases he; exact hx e rfl
  | ok a => exact h a

lemma errin_pyGetE (l : List Int) (i : Int) : ErrIn ["IndexError"] (pyGetE l i) := by
  unfold pyGetE
  cases pyGet l i with
  | none => exact errin_error (by simp)
  | some v => exact errin_ok _ _

lemma errin_setRegE (s : CPU) (i v : Int) : ErrIn ["IndexError"] (setRegE s i v) := by
  unfold setRegE
  cases pySet s.reg i v with
  | none => exact errin_error (by simp)
  | some l => exact errin_ok _ _

lemma errin_ram_write (s : CPU) (a v : Int) : ErrIn ["IndexError"] (ram_write s a v) := by
  unfold ram_write
  cases pySet s.ram a v with
  | none => exact errin_error (by simp)
  | some l => exact errin_ok _ _

lemma errin_handle_overflow (j : Int) (s : CPU) :
    ErrIn ["IndexError"] (handle_overflow j s) := by
  unfold handle_overflow
  apply errin_bind (errin_pyGetE _ _)
  intro a
  apply errin_bind (errin_setRegE _ _ _)
  intro s1
  apply errin_bind (errin_pyGetE _ _)
  intro b
  exact errin_setRegE _ _ _

lemma pok_intro {α : Type} {P : α → Prop} {m : Except String α}
    (h : ∀ a, m = .ok a → P a) : POk P m := h

lemma errin_intro {α : Type} {es : List String} {m : Except String α}
    (h : ∀ e, m = .error e → e ∈ es) : ErrIn es m := h

lemma pok_elim {α : Type} {P : α → Prop} {m : Except String α} (h : POk P m) {a : α}
    (ha : m = .ok a) : P a := h a ha

lemma errin_elim {α : Type} {es : List String} {m : Except String α} (h : ErrIn es m)
    {e : String} (he : m = .error e) : e ∈ es := h e he

lemma errin_mono {α : Type} {es es2 : List String} (hsub : ∀ e, e ∈ es → e ∈ es2)
    {m : Except String α} (h : ErrIn es m) : ErrIn es2 m :=
  fun e he => hsub e (h e he)

lemma errin_bind_pok {α β : Type} {es : List String} {x : Except String α} {Q : α → Prop}
    {g : α → Except String β} (hx : ErrIn es x) (hq : POk Q x)
    (h : ∀ a, Q a → ErrIn es (g a)) : ErrIn es (x >>= g) := by
  cases x with
  | error e => exact fun e2 he => by cases he; exact hx e rfl
  | ok a => exact h a (hq a rfl)

attribute [irreducible] POk ErrIn

lemma pySet_some_length {l : List Int} {i v : Int} {l2 : List Int}
    (h : pySet l i v = some l2) : l2.length = l.length := by
  unfold pySet at h
  cases hj : pyIndex l.length i with
  | none => rw [hj] at h; cases h
  | some j =>
    rw [hj] at h
    cases h
    exact List.length_set ..

/-- Fields other than `reg` (plus the register count) that `setRegE` leaves
unchanged. -/
def RegOnly (s t : CPU) : Prop :=
  t.ram = s.ram ∧ t.pc = s.pc ∧ t.ir = s.ir ∧ t.fl = s.fl ∧ t.running = s.running
    ∧ t.reg.length = s.reg.length

lemma regOnly_trans {s t u : CPU} (h1 : RegOnly s t) (h2 : RegOnly t u) : RegOnly s u := by
  obtain ⟨a1, b1, c1, d1, e1, f1⟩ := h1
  obtain ⟨a2, b2, c2, d2, e2, f2⟩ := h2
  exact ⟨a2.trans a1, b2.trans b1, c2.trans c1, d2.trans d1, e2.trans e1, f2.trans f1⟩

lemma pok_setRegE (s : CPU) (i v : Int) : POk (RegOnly s) (setRegE s i v) := by
  refine pok_intro fun t h => ?_
  unfold setRegE at h
  cases hp : pySet s.reg i v with
  | none => rw [hp] at h; cases h
  | some l =>
    rw [hp] at h
    cases h
    exact ⟨rfl, rfl, rfl, rfl, rfl, pySet_some_length hp⟩

/-- Fields other than `ram` (plus the RAM size) that `ram_write` leaves
unchanged. -/
def RamOnly (s t : CPU) : Prop :=
  t.reg = s.reg ∧ t.pc = s.pc ∧ t.ir = s.ir ∧ t.fl = s.fl ∧ t.running = s.running
    ∧ t.ram.length = s.ram.length

lemma pok_ram_write (s : CPU) (a v : Int) : POk (RamOnly s) (ram_write s a v) := by
  refine pok_intro fun t h => ?_
  unfold ram_write at h
  cases hp : pySet s.ram a v with
  | none => rw [hp] at h; cases h
  | some l =>
    rw [hp] at h
    cases h
    exact ⟨rfl, rfl, rfl, rfl, rfl, pySet_some_length hp⟩

lemma pok_handle_overflow (j : Int) (s : CPU) : POk (RegOnly s) (handle_overflow j s) := by
  unfold handle_overflow
  apply pok_bindv
  intro a
  apply pok_binds (pok_setRegE _ _ _)
  intro s1 h1
  apply pok_bindv
  intro b
  exact pok_mono (fun t ht => regOnly_trans h1 ht) (pok_setRegE _ _ _)

/-! ## Per-handler frame facts: which state fields each handler leaves alone -/

lemma frame_hlt (s : CPU) :
    POk (fun t => t.reg = s.reg ∧ t.ram = s.ram ∧ t.pc = s.pc ∧ t.fl = s.fl) (op_hlt s) := by
  refine pok_intro fun t h => ?_
  unfold op_hlt at h
  cases h
  exact ⟨rfl, rfl, rfl, rfl⟩

lemma frame_nop (s : CPU) : POk (fun t => t = s) (op_nop s) := by
  refine pok_intro fun t h => ?_
  unfold op_nop at h
  cases h
  rfl

lemma frame_prn (r : Int) (s : CPU) : POk (fun t => t = s) (op_prn r s) := by
  unfold op_prn
  apply pok_bindv
  intro v
  exact pok_ok rfl

lemma frame_ld (ra rb : Int) (s : CPU) : POk (RegOnly s) (op_ld ra rb s) := by
  unfold op_ld
  apply pok_bindv
  intro addr
  apply pok_bindv
  intro v
  exact pok_setRegE _ _ _

lemma frame_ldi (r i : Int) (s : CPU) : POk (RegOnly s) (op_ldi r i s) := by
  unfold op_ldi
  exact pok_setRegE _ _ _

lemma frame_pop (r : Int) (s : CPU) : POk (RegOnly s) (op_pop r s) := by
  unfold op_pop
  apply pok_bindv
  intro sp
  apply pok_bindv
  intro v
  apply pok_binds (pok_setRegE _ _ _)
  intro s1 h1
  apply pok_bindv
  intro sp1
  apply pok_binds (pok_setRegE _ _ _)
  intro s2 h2
  exact pok_mono (fun t ht => regOnly_trans h1 (regOnly_trans h2 ht)) (pok_handle_overflow _ _)

lemma frame_push (r : Int) (s : CPU) :
    POk (fun t => t.pc = s.pc ∧ t.ir = s.ir ∧ t.fl = s.fl ∧ t.running = s.running
      ∧ t.reg.length = s.reg.length ∧ t.ram.length = s.ram.length) (op_push r s) := by
  unfold op_push
  apply pok_bindv
  intro sp
  apply pok_binds (pok_setRegE _ _ _)
  intro s1 h1
  apply pok_binds (pok_handle_overflow _ _)
  intro s2 h2
  apply pok_bindv
  intro sp2
  apply pok_bindv
  intro v
  refine pok_mono (fun t ht => ?_) (pok_ram_write _ _ _)
  obtain ⟨hram1, hpc1, hir1, hfl1, hrun1, hlen1⟩ := h1
  obtain ⟨hram2, hpc2, hir2, hfl2, hrun2, hlen2⟩ := h2
  obtain ⟨hreg3, hpc3, hir3, hfl3, hrun3, hlen3⟩ := ht
  refine ⟨hpc3.trans (hpc2.trans hpc1), hir3.trans (hir2.trans hir1),
    hfl3.trans (hfl2.trans hfl1), hrun3.trans (hrun2.trans hrun1), ?_, ?_⟩
  · rw [hreg3, hlen2, hlen1]
  · rw [hlen3, hram2, hram1]

lemma frame_call (r : Int) (s : CPU) :
    POk (fun t => t.ir = s.ir ∧ t.fl = s.fl ∧ t.running = s.running
      ∧ t.reg.length = s.reg.length ∧ t.ram.length = s.ram.length) (op_call r s) := by
  unfold op_call
  apply pok_bindv
  intro sp
  apply pok_binds (pok_setRegE _ _ _)
  intro s1 h1
  apply pok_binds (pok_handle_overflow _ _)
  intro s2 h2
  apply pok_bindv
  intro sp2
  apply pok_binds (pok_ram_write _ _ _)
  intro s3 h3
  apply pok_bindv
  intro v
  refine pok_ok ?_
  obtain ⟨hram1, hpc1, hir1, hfl1, hrun1, hlen1⟩ := h1
  obtain ⟨hram2, hpc2, hir2, hfl2, hrun2, hlen2⟩ := h2
  obtain ⟨hreg3, hpc3, hir3, hfl3, hrun3, hlen3⟩ := h3
  refine ⟨hir3.trans (hir2.trans hir1), hfl3.trans (hfl2.trans hfl1),
    hrun3.trans (hrun2.trans hrun1), ?_, ?_⟩
  · rw [hreg3, hlen2, hlen1]
  · rw [hlen3, hram2, hram1]

lemma frame_jeq (r : Int) (s : CPU) :
    POk (fun t => t.reg = s.reg ∧ t.ram = s.ram ∧ t.ir = s.ir ∧ t.fl = s.fl
      ∧ t.running = s.running) (op_jeq r s) := by
  unfold op_jeq
  split
  · apply pok_bindv
    intro v
    exact pok_ok ⟨rfl, rfl, rfl, rfl, rfl⟩
  · exact pok_ok ⟨rfl, rfl, rfl, rfl, rfl⟩

lemma frame_jge (r : Int) (s : CPU) :
    POk (fun t => t.reg = s.reg ∧ t.ram = s.ram ∧ t.ir = s.ir ∧ t.fl = s.fl
      ∧ t.running = s.running) (op_jge r s) := by
  unfold op_jge
  split
  · apply pok_bindv
    intro v
    exact pok_ok ⟨rfl, rfl, rfl, rfl, rfl⟩
  · exact pok_ok ⟨rfl, rfl, rfl, rfl, rfl⟩

lemma frame_jgt (r : Int) (s : CPU) :
    POk (fun t => t.reg = s.reg ∧ t.ram = s.ram ∧ t.ir = s.ir ∧ t.fl = s.fl
      ∧ t.running = s.running) (op_jgt r s) := by
  unfold op_jgt
  split
  · apply pok_bindv
    intro v
    exact pok_ok ⟨rfl, rfl, rfl, rfl, rfl⟩
  · exact pok_ok ⟨rfl, rfl, rfl, rfl, rfl⟩

lemma frame_jle (r : Int) (s : CPU) :
    POk (fun t => t.reg = s.reg ∧ t.ram = s.ram ∧ t.ir = s.ir ∧ t.fl = s.fl
      ∧ t.running = s.running) (op_jle r s) := by
  unfold op_jle
  split
  · apply pok_bindv
    intro v
    exact pok_ok ⟨rfl, rfl, rfl, rfl, rfl⟩
  · exact pok_ok ⟨rfl, rfl, rfl, rfl, rfl⟩

lemma frame_jlt (r : Int) (s : CPU) :
    POk (fun t => t.reg = s.reg ∧ t.ram = s.ram ∧ t.ir = s.ir ∧ t.fl = s.fl
      ∧ t.running = s.running) (op_jlt r s) := by
  unfold op_jlt
  split
  · apply pok_bindv
    intro v
    exact pok_ok ⟨rfl, rfl, rfl, rfl, rfl⟩
  · exact pok_ok ⟨rfl, rfl, rfl, rfl, rfl⟩

lemma frame_jmp (r : Int) (s : CPU) :
    POk (fun t => t.reg = s.reg ∧ t.ram = s.ram ∧ t.ir = s.ir ∧ t.fl = s.fl
      ∧ t.running = s.running) (op_jmp r s) := by
  unfold op_jmp
  apply pok_bindv
  intro v
  exact pok_ok ⟨rfl, rfl, rfl, rfl, rfl⟩

lemma frame_jne (r : Int) (s : CPU) :
    POk (fun t => t.reg = s.reg ∧ t.ram = s.ram ∧ t.ir = s.ir ∧ t.fl = s.fl
      ∧ t.running = s.running) (op_jne r s) := by
  unfold op_jne
  split
  · exact pok_ok ⟨rfl, rfl, rfl, rfl, rfl⟩
  · apply pok_bindv
    intro v
    exact pok_ok ⟨rfl, rfl, rfl, rfl, rfl⟩

lemma frame_ret (s : CPU) :
    POk (fun t => t.ram = s.ram ∧ t.ir = s.ir ∧ t.fl = s.fl ∧ t.running = s.running
      ∧ t.reg.length = s.reg.length) (op_ret s) := by
  unfold op_ret
  apply pok_bindv
  intro sp
  apply pok_bindv
  intro v
  dsimp only
  apply pok_bindv
  intro sp1
  apply pok_binds (pok_setRegE _ _ _)
  intro s2 h2
  refine pok_mono (fun t ht => ?_) (pok_handle_overflow _ _)
  obtain ⟨hram2, hpc2, hir2, hfl2, hrun2, hlen2⟩ := h2
  obtain ⟨hram3, hpc3, hir3, hfl3, hrun3, hlen3⟩ := ht
  exact ⟨hram3.trans hram2, hir3.trans hir2, hfl3.trans hfl2,
    hrun3.trans hrun2, hlen3.trans hlen2⟩

lemma frame_add (ra rb : Int) (s : CPU) : POk (RegOnly s) (op_add ra rb s) := by
  unfold op_add
  apply pok_bindv
  intro va
  apply pok_bindv
  intro vb
  exact pok_setRegE _ _ _

lemma frame_and (ra rb : Int) (s : CPU) : POk (RegOnly s) (op_and ra rb s) := by
  unfold op_and
  apply pok_bindv
  intro va
  apply pok_bindv
  intro vb
  exact pok_setRegE _ _ _

lemma frame_cmp (ra rb : Int) (s : CPU) :
    POk (fun t => t.reg = s.reg ∧ t.ram = s.ram ∧ t.pc = s.pc ∧ t.ir = s.ir
      ∧ t.running = s.running) (op_cmp ra rb s) := by
  unfold op_cmp
  apply pok_bindv
  intro va
  apply pok_bindv
  intro vb
  split
  · exact pok_ok ⟨rfl, rfl, rfl, rfl, rfl⟩
  · split
    · exact pok_ok ⟨rfl, rfl, rfl, rfl, rfl⟩
    · exact pok_ok ⟨rfl, rfl, rfl, rfl, rfl⟩

lemma frame_dec (ra : Int) (s : CPU) : POk (RegOnly s) (op_dec ra s) := by
  unfold op_dec
  apply pok_bindv
  intro v
  apply pok_binds (pok_setRegE _ _ _)
  intro s1 h1
  apply pok_bindv
  intro v1
  exact pok_mono (fun t ht => regOnly_trans h1 ht) (pok_handle_overflow _ _)

lemma frame_inc (ra : Int) (s : CPU) : POk (RegOnly s) (op_inc ra s) := by
  unfold op_inc
  apply pok_bindv
  intro v
  apply pok_binds (pok_setRegE _ _ _)
  intro s1 h1
  apply pok_bindv
  intro v1
  exact pok_mono (fun t ht => regOnly_trans h1 ht) (pok_handle_overflow _ _)

lemma frame_mul (ra rb : Int) (s : CPU) : POk (RegOnly s) (op_mul ra rb s) := by
  unfold op_mul
  apply pok_bindv
  intro va
  apply pok_bindv
  intro vb
  exact pok_setRegE _ _ _

/-! ## Per-handler exception classification: handlers raise only `IndexError` -/

lemma errin_ram_read (s : CPU) (a : Int) : ErrIn ["IndexError"] (ram_read s a) := by
  unfold ram_read
  exact errin_pyGetE _ _

lemma errin_op_hlt (s : CPU) : ErrIn ["IndexError"] (op_hlt s) := by
  unfold op_hlt
  exact errin_ok _ _

lemma errin_op_ld (ra rb : Int) (s : CPU) : ErrIn ["IndexError"] (op_ld ra rb s) := by
  unfold op_ld
  apply errin_bind (errin_pyGetE _ _)
  intro addr
  apply errin_bind (errin_ram_read _ _)
  intro v
  exact errin_setRegE _ _ _

lemma errin_op_ldi (r i : Int) (s : CPU) : ErrIn ["IndexError"] (op_ldi r i s) := by
  unfold op_ldi
  exact errin_setRegE _ _ _

lemma errin_op_nop (s : CPU) : ErrIn ["IndexError"] (op_nop s) := by
  unfold op_nop
  exact errin_ok _ _

lemma errin_op_pop (r : Int) (s : CPU) : ErrIn ["IndexError"] (op_pop r s) := by
  unfold op_pop
  apply errin_bind (errin_pyGetE _ _)
  intro sp
  apply errin_bind (errin_ram_read _ _)
  intro v
  apply errin_bind (errin_setRegE _ _ _)
  intro s1
  apply errin_bind (errin_pyGetE _ _)
  intro sp1
  apply errin_bind (errin_setRegE _ _ _)
  intro s2
  exact errin_handle_overflow _ _

lemma errin_op_prn (r : Int) (s : CPU) : ErrIn ["IndexError"] (op_prn r s) := by
  unfold op_prn
  apply errin_bind (errin_pyGetE _ _)
  intro v
  exact errin_ok _ _

lemma errin_op_push (r : Int) (s : CPU) : ErrIn ["IndexError"] (op_push r s) := by
  unfold op_push
  apply errin_bind (errin_pyGetE _ _)
  intro sp
  apply errin_bind (errin_setRegE _ _ _)
  intro s1
  apply errin_bind (errin_handle_overflow _ _)
  intro s2
  apply errin_bind (errin_pyGetE _ _)
  intro sp2
  apply errin_bind (errin_pyGetE _ _)
  intro v
  exact errin_ram_write _ _ _

lemma errin_op_call (r : Int) (s : CPU) : ErrIn ["IndexError"] (op_call r s) := by
  unfold op_call
  apply errin_bind (errin_pyGetE _ _)
  intro sp
  apply errin_bind (errin_setRegE _ _ _)
  intro s1
  apply errin_bind (errin_handle_overflow _ _)
  intro s2
  apply errin_bind (errin_pyGetE _ _)
  intro sp2
  apply errin_bind (errin_ram_write _ _ _)
  intro s3
  apply errin_bind (errin_pyGetE _ _)
  intro v
  exact errin_ok _ _

lemma errin_op_jeq (r : Int) (s : CPU) : ErrIn ["IndexError"] (op_jeq r s) := by
  unfold op_jeq
  split
  · apply errin_bind (errin_pyGetE _ _)
    intro v
    exact errin_ok _ _
  · exact errin_ok _ _

lemma errin_op_jge (r : Int) (s : CPU) : ErrIn ["IndexError"] (op_jge r s) := by
  unfold op_jge
  split
  · apply errin_bind (errin_pyGetE _ _)
    intro v
    exact errin_ok _ _
  · exact errin_ok _ _

lemma errin_op_jgt (r : Int) (s : CPU) : ErrIn ["IndexError"] (op_jgt r s) := by
  unfold op_jgt
  split
  · apply errin_bind (errin_pyGetE _ _)
    intro v
    exact errin_ok _ _
  · exact errin_ok _ _

lemma errin_op_jle (r : Int) (s : CPU) : ErrIn ["IndexError"] (op_jle r s) := by
  unfold op_jle
  split
  · apply errin_bind (errin_pyGetE _ _)
    intro v
    exact errin_ok _ _
  · exact errin_ok _ _

lemma errin_op_jlt (r : Int) (s : CPU) : ErrIn ["IndexError"] (op_jlt r s) := by
  unfold op_jlt
  split
  · apply errin_bind (errin_pyGetE _ _)
    intro v
    exact errin_ok _ _
  · exact errin_ok _ _

lemma errin_op_jmp (r : Int) (s : CPU) : ErrIn ["IndexError"] (op_jmp r s) := by
  unfold op_jmp
  apply errin_bind (errin_pyGetE _ _)
  intro v
  exact errin_ok _ _

lemma errin_op_jne (r : Int) (s : CPU) : ErrIn ["IndexError"] (op_jne r s) := by
  unfold op_jne
  split
  · exact errin_ok _ _
  · apply errin_bind (errin_pyGetE _ _)
    intro v
    exact errin_ok _ _

lemma errin_op_ret (s : CPU) : ErrIn ["IndexError"] (op_ret s) := by
  unfold op_ret
  apply errin_bind (errin_pyGetE _ _)
  intro sp
  apply errin_bind (errin_ram_read _ _)
  intro v
  dsimp only
  apply errin_bind (errin_pyGetE _ _)
  intro sp1
  apply errin_bind (errin_setRegE _ _ _)
  intro s2
  exact errin_handle_overflow _ _

lemma errin_op_add (ra rb : Int) (s : CPU) : ErrIn ["IndexError"] (op_add ra rb s) := by
  unfold op_add
  apply errin_bind (errin_pyGetE _ _)
  intro va
  apply errin_bind (errin_pyGetE _ _)
  intro vb
  exact errin_setRegE _ _ _

lemma errin_op_and (ra rb : Int) (s : CPU) : ErrIn ["IndexError"] (op_and ra rb s) := by
  unfold op_and
  apply errin_bind (errin_pyGetE _ _)
  intro va
  apply errin_bind (errin_pyGetE _ _)
  intro vb
  exact errin_setRegE _ _ _

lemma errin_op_cmp (ra rb : Int) (s : CPU) : ErrIn ["IndexError"] (op_cmp ra rb s) := by
  unfold op_cmp
  apply errin_bind (errin_pyGetE _ _)
  intro va
  apply errin_bind (errin_pyGetE _ _)
  intro vb
  split
  · exact errin_ok _ _
  · split
    · exact errin_ok _ _
    · exact errin_ok _ _

lemma errin_op_dec (ra : Int) (s : CPU) : ErrIn ["IndexError"] (op_dec ra s) := by
  unfold op_dec
  apply errin_bind (errin_pyGetE _ _)
  intro v
  apply errin_bind (errin_setRegE _ _ _)
  intro s1
  apply errin_bind (errin_pyGetE _ _)
  intro v1
  exact errin_handle_overflow _ _

lemma errin_op_inc (ra : Int) (s : CPU) : ErrIn ["IndexError"] (op_inc ra s) := by
  unfold op_inc
  apply errin_bind (errin_pyGetE _ _)
  intro v
  apply errin_bind (errin_setRegE _ _ _)
  intro s1
  apply errin_bind (errin_pyGetE _ _)
  intro v1
  exact errin_handle_overflow _ _

lemma errin_op_mul (ra rb : Int) (s : CPU) : ErrIn ["IndexError"] (op_mul ra rb s) := by
  unfold op_mul
  apply errin_bind (errin_pyGetE _ _)
  intro va
  apply errin_bind (errin_pyGetE _ _)
  intro vb
  exact errin_setRegE _ _ _

/-! ## Dispatch facts: table keys encode operand arity; the loop matches it -/

/-- A handler whose every exception is an `IndexError`, at any arguments. -/
def HandlerIdxOnly : OpHandler → Prop
  | .h0 f => ∀ s, ErrIn ["IndexError"] (f s)
  | .h1 f => ∀ a s, ErrIn ["IndexError"] (f a s)
  | .h2 f => ∀ a b s, ErrIn ["IndexError"] (f a b s)

lemma handlers_idx_only : ∀ p ∈ op_table, HandlerIdxOnly p.2 := by
  intro p hmem
  simp only [op_table, List.mem_cons, List.not_mem_nil, or_false] at hmem
  rcases hmem with rfl | rfl | rfl | rfl | rfl | rfl | rfl | rfl | rfl | rfl | rfl
    | rfl | rfl | rfl | rfl | rfl | rfl | rfl | rfl | rfl | rfl | rfl
  · exact errin_op_hlt
  · exact errin_op_ld
  · exact errin_op_ldi
  · exact errin_op_nop
  · exact errin_op_pop
  · exact errin_op_prn
  · exact errin_op_push
  · exact errin_op_call
  · exact errin_op_jeq
  · exact errin_op_jge
  · exact errin_op_jgt
  · exact errin_op_jle
  · exact errin_op_jlt
  · exact errin_op_jmp
  · exact errin_op_jne
  · exact errin_op_ret
  · exact errin_op_add
  · exact errin_op_and
  · exact errin_op_cmp
  · exact errin_op_dec
  · exact errin_op_inc
  · exact errin_op_mul

/-- The top two bits of every key of the dispatch table equal the number of
operand parameters of the registered handler (`key >> 6` on a Python int is
floor division by 64). -/
lemma opLookup_arity {key : Int} {hd : OpHandler} (h : opLookup key = .ok hd) :
    (Int.ediv key 64).toNat = hd.arity := by
  unfold opLookup at h
  cases hfind : op_table.find? (fun p => p.1 == key) with
  | none => rw [hfind] at h; cases h
  | some p =>
    rw [hfind] at h
    cases h
    have hkey := List.find?_some hfind
    have hmem : p ∈ op_table := List.mem_of_find?_eq_some hfind
    have hk : p.1 = key := by
      simp only [beq_iff_eq] at hkey
      exact hkey
    subst hk
    simp only [op_table, List.mem_cons, List.not_mem_nil, or_false] at hmem
    rcases hmem with rfl | rfl | rfl | rfl | rfl | rfl | rfl | rfl | rfl | rfl | rfl
      | rfl | rfl | rfl | rfl | rfl | rfl | rfl | rfl | rfl | rfl | rfl <;> rfl

/-- The looked-up handler raises only `IndexError`. -/
lemma opLookup_idx_only {key : Int} {hd : OpHandler} (h : opLookup key = .ok hd) :
    HandlerIdxOnly hd := by
  unfold opLookup at h
  cases hfind : op_table.find? (fun p => p.1 == key) with
  | none => rw [hfind] at h; cases h
  | some p =>
    rw [hfind] at h
    cases h
    exact handlers_idx_only p (List.mem_of_find?_eq_some hfind)

lemma errin_opLookup (key : Int) : ErrIn ["KeyError"] (opLookup key) := by
  unfold opLookup
  cases op_table.find? (fun p => p.1 == key) with
  | none => exact errin_error (by simp)
  | some p => exact errin_ok _ _

lemma fetchFrom_length {ram : List Int} {pc : Int} {i n : Nat} {args : List Int}
    (h : fetchFrom ram pc i n = .ok args) : args.length = n := by
  induction n generalizing i args with
  | zero => unfold fetchFrom at h; cases h; rfl
  | succ m ih =>
    unfold fetchFrom at h
    cases hx : pyGetE ram (pc + i + 1) with
    | error e => rw [hx, exbind_error] at h; cases h
    | ok v =>
      rw [hx, exbind_ok] at h
      cases hy : fetchFrom ram pc (i + 1) m with
      | error e => rw [hy, exbind_error] at h; cases h
      | ok rest =>
        rw [hy, exbind_ok] at h
        cases h
        simp [ih hy]

lemma errin_fetchFrom (ram : List Int) (pc : Int) (i n : Nat) :
    ErrIn ["IndexError"] (fetchFrom ram pc i n) := by
  induction n generalizing i with
  | zero => unfold fetchFrom; exact errin_ok _ _
  | succ m ih =>
    unfold fetchFrom
    apply errin_bind (errin_pyGetE _ _)
    intro v
    apply errin_bind (ih (i + 1))
    intro rest
    exact errin_ok _ _

/-- When the operand count matches the handler's arity, `applyHandler` cannot
raise `TypeError`: it runs the handler, whose errors are `IndexError`s. -/
lemma errin_applyHandler {hd : OpHandler} {args : List Int} (s : CPU)
    (hh : HandlerIdxOnly hd) (hlen : args.length = hd.arity) :
    ErrIn ["IndexError"] (applyHandler hd args s) := by
  cases hd with
  | h0 f =>
    cases args with
    | nil => exact hh s
    | cons a rest => simp [OpHandler.arity] at hlen
  | h1 f =>
    cases args with
    | nil => simp [OpHandler.arity] at hlen
    | cons a rest =>
      cases rest with
      | nil => exact hh a s
      | cons b rest2 => simp [OpHandler.arity] at hlen
  | h2 f =>
    cases args with
    | nil => simp [OpHandler.arity] at hlen
    | cons a rest =>
      cases rest with
      | nil => simp [OpHandler.arity] at hlen
      | cons b rest2 =>
        cases rest2 with
        | nil => exact hh a b s
        | cons c rest3 => simp [OpHandler.arity] at hlen

/-! ## The cycle body raises only `IndexError` or `KeyError` -/

lemma step_err (s0 : CPU) : ErrIn ["IndexError", "KeyError"] (step s0) := by
  have hsub : ∀ e, e ∈ ["IndexError"] → e ∈ ["IndexError", "KeyError"] := by
    intro e he
    simp only [List.mem_cons, List.not_mem_nil, or_false] at he
    simp [he]
  have hsub2 : ∀ e, e ∈ ["KeyError"] → e ∈ ["IndexError", "KeyError"] := by
    intro e he
    simp only [List.mem_cons, List.not_mem_nil, or_false] at he
    simp [he]
  unfold step
  apply errin_bind (errin_mono hsub (errin_ram_read _ _))
  intro ir
  dsimp only
  apply errin_bind_pok (errin_mono hsub (errin_fetchFrom _ _ _ _))
    (pok_intro fun args h => fetchFrom_length h)
  intro args hlen
  apply errin_bind_pok (errin_mono hsub2 (errin_opLookup _))
    (pok_intro fun hd h => And.intro (opLookup_idx_only h) (opLookup_arity h))
  intro hd hfacts
  apply errin_bind (errin_mono hsub (errin_applyHandler _ hfacts.1 (hlen.trans hfacts.2)))
  intro s1
  exact errin_ok _ _

lemma runFuel_err (n : Nat) (s : CPU) : ErrIn ["IndexError", "KeyError"] (runFuel n s) := by
  induction n generalizing s with
  | zero =>
    unfold runFuel
    exact errin_ok _ _
  | succ m ih =>
    unfold runFuel
    split
    · exact errin_bind (step_err s) fun t => ih t
    · exact errin_ok _ _

/-! ## Valid-index reductions for register and RAM access -/

lemma pyGet_set_self {l : List Int} {i : Int} (w : Int) (h0 : 0 ≤ i)
    (h1 : i < (l.length : Int)) : pyGet (l.set i.toNat w) i = some w := by
  have hlen : (l.set i.toNat w).length = l.length := List.length_set ..
  rw [pyGet_valid h0 (by rw [hlen]; exact h1)]
  exact List.get?_set_eq_of_lt _ (by omega)

lemma pyGet_set_other {l : List Int} {i : Int} (j : Nat) (w : Int) (h0 : 0 ≤ i)
    (h1 : i < (l.length : Int)) (hne : i.toNat ≠ j) :
    pyGet (l.set j w) i = pyGet l i := by
  have hlen : (l.set j w).length = l.length := List.length_set ..
  rw [pyGet_valid h0 (by rw [hlen]; exact h1), pyGet_valid h0 h1]
  exact List.get?_set_ne _ _ fun h => hne h.symm

lemma setRegE_valid {s : CPU} {i : Int} (v : Int) (h0 : 0 ≤ i)
    (h1 : i < (s.reg.length : Int)) :
    setRegE s i v = .ok { s with reg := s.reg.set i.toNat v } :=
  setRegE_ok (pySet_valid v h0 h1)

lemma ram_write_valid {s : CPU} {a : Int} (v : Int) (h0 : 0 ≤ a)
    (h1 : a < (s.ram.length : Int)) :
    ram_write s a v = .ok { s with ram := s.ram.set a.toNat v } :=
  ram_write_ok (pySet_valid v h0 h1)

lemma push_spec {s : CPU} {r sp v : Int} (h8 : s.reg.length = 8) (hram : s.ram.length = 256)
    (hr0 : 0 ≤ r) (hr8 : r < 8) (hne : r ≠ 7)
    (hsp : pyGet s.reg 7 = some sp) (hv : pyGet s.reg r = some v) :
    op_push r s = .ok { s with
      reg := s.reg.set 7 (clampVal (sp - 1))
      ram := s.ram.set (clampVal (sp - 1)).toNat v } := by
  have hlen7 : (7 : Int) < (s.reg.length : Int) := by rw [h8]; norm_num
  have hlenr : r < (s.reg.length : Int) := by rw [h8]; exact_mod_cast hr8
  have hrne : r.toNat ≠ (7 : Int).toNat := by omega
  have h07 : (0 : Int) ≤ 7 := by norm_num
  simp only [op_push, pyGetE_ok hsp, exbind_ok]
  simp only [setRegE_valid (sp - 1) h07 hlen7, exbind_ok]
  have hget1 : pyGet (s.reg.set (7 : Int).toNat (sp - 1)) 7 = some (sp - 1) :=
    pyGet_set_self _ h07 hlen7
  have hlen1 : (7 : Int) < (((s.reg.set (7 : Int).toNat (sp - 1)) : List Int).length : Int) := by
    rw [List.length_set]; exact hlen7
  simp only [@handle_overflow_valid { s with reg := s.reg.set (7 : Int).toNat (sp - 1) } 7
    (sp - 1) h07 hlen1 hget1, exbind_ok, List.set_set]
  have hget2 : pyGet (s.reg.set (7 : Int).toNat (clampVal (sp - 1))) 7
      = some (clampVal (sp - 1)) := pyGet_set_self _ h07 hlen7
  simp only [pyGetE_ok hget2, exbind_ok]
  have hgetr : pyGet (s.reg.set (7 : Int).toNat (clampVal (sp - 1))) r = some v := by
    rw [pyGet_set_other _ _ hr0 hlenr hrne]
    exact hv
  have hclt : clampVal (sp - 1) < ((s.ram.length : Nat) : Int) := by
    have := clampVal_le (sp - 1)
    rw [hram]
    omega
  simp only [pyGetE_ok hgetr, exbind_ok,
    @ram_write_valid { s with reg := s.reg.set (7 : Int).toNat (clampVal (sp - 1)) }
      (clampVal (sp - 1)) v (clampVal_nonneg _) hclt]
  rfl

lemma ram_read_ok {s : CPU} {a w : Int} (h : pyGet s.ram a = some w) :
    ram_read s a = .ok w := by
  unfold ram_read
  exact pyGetE_ok h

lemma pop_spec {s : CPU} {r sp w : Int} (h8 : s.reg.length = 8)
    (hr0 : 0 ≤ r) (hr8 : r < 8) (hne : r ≠ 7)
    (hsp : pyGet s.reg 7 = some sp) (hw : pyGet s.ram sp = some w) :
    op_pop r s = .ok { s with reg := (s.reg.set r.toNat w).set 7 (clampVal (sp + 1)) } := by
  have h07 : (0 : Int) ≤ 7 := by norm_num
  have hlen7 : (7 : Int) < (s.reg.length : Int) := by rw [h8]; norm_num
  have hlenr : r < (s.reg.length : Int) := by rw [h8]; exact_mod_cast hr8
  have h7ne : (7 : Int).toNat ≠ r.toNat := by omega
  simp only [op_pop, pyGetE_ok hsp, exbind_ok, ram_read_ok hw]
  simp only [setRegE_valid w hr0 hlenr, exbind_ok]
  have hlenA : ((s.reg.set r.toNat w).length : Int) = (s.reg.length : Int) := by
    rw [List.length_set]
  have hget7A : pyGet (s.reg.set r.toNat w) 7 = some sp := by
    rw [pyGet_set_other _ _ h07 hlen7 h7ne]
    exact hsp
  simp only [pyGetE_ok hget7A, exbind_ok]
  simp only [@setRegE_valid { s with reg := s.reg.set r.toNat w } 7 (sp + 1) h07
    (by rw [hlenA]; exact hlen7), exbind_ok]
  have hget7B : pyGet ((s.reg.set r.toNat w).set (7 : Int).toNat (sp + 1)) 7
      = some (sp + 1) :=
    pyGet_set_self _ h07 (by rw [hlenA]; exact hlen7)
  simp only [@handle_overflow_valid
    { s with reg := (s.reg.set r.toNat w).set (7 : Int).toNat (sp + 1) } 7 (sp + 1) h07
    (by rw [List.length_set, hlenA]; exact hlen7) hget7B, exbind_ok, List.set_set]
  rfl

lemma call_spec {s : CPU} {r sp w : Int} (h8 : s.reg.length = 8) (hram : s.ram.length = 256)
    (hr0 : 0 ≤ r) (hr8 : r < 8) (hsp : pyGet s.reg 7 = some sp)
    (hw : pyGet (s.reg.set 7 (clampVal (sp - 1))) r = some w) :
    op_call r s = .ok { s with
      reg := s.reg.set 7 (clampVal (sp - 1))
      ram := s.ram.set (clampVal (sp - 1)).toNat (s.pc + 2)
      pc := w } := by
  have h07 : (0 : Int) ≤ 7 := by norm_num
  have hlen7 : (7 : Int) < (s.reg.length : Int) := by rw [h8]; norm_num
  simp only [op_call, pyGetE_ok hsp, exbind_ok]
  simp only [setRegE_valid (sp - 1) h07 hlen7, exbind_ok]
  have hget1 : pyGet (s.reg.set (7 : Int).toNat (sp - 1)) 7 = some (sp - 1) :=
    pyGet_set_self _ h07 hlen7
  have hlen1 : (7 : Int) < ((s.reg.set (7 : Int).toNat (sp - 1)).length : Int) := by
    rw [List.length_set]
    exact hlen7
  simp only [@handle_overflow_valid { s with reg := s.reg.set (7 : Int).toNat (sp - 1) } 7
    (sp - 1) h07 hlen1 hget1, exbind_ok, List.set_set]
  have hget2 : pyGet (s.reg.set (7 : Int).toNat (clampVal (sp - 1))) 7
      = some (clampVal (sp - 1)) := pyGet_set_self _ h07 hlen7
  simp only [pyGetE_ok hget2, exbind_ok]
  have hclt : clampVal (sp - 1) < ((s.ram.length : Nat) : Int) := by
    have := clampVal_le (sp - 1)
    rw [hram]
    omega
  simp only [@ram_write_valid { s with reg := s.reg.set (7 : Int).toNat (clampVal (sp - 1)) }
    (clampVal (sp - 1)) _ (clampVal_nonneg _) hclt, exbind_ok]
  have hw2 : pyGet (s.reg.set (7 : Int).toNat (clampVal (sp - 1))) r = some w := hw
  simp only [pyGetE_ok hw2, exbind_ok]
  rfl

lemma ret_spec {s : CPU} {sp w : Int} (h8 : s.reg.length = 8)
    (hsp : pyGet s.reg 7 = some sp) (hw : pyGet s.ram sp = some w) :
    op_ret s = .ok { s with
      reg := s.reg.set 7 (clampVal (sp + 1))
      pc := w } := by
  have h07 : (0 : Int) ≤ 7 := by norm_num
  have hlen7 : (7 : Int) < (s.reg.length : Int) := by rw [h8]; norm_num
  simp only [op_ret, pyGetE_ok hsp, exbind_ok, ram_read_ok hw]
  simp only [@setRegE_valid { s with pc := w } 7 (sp + 1) h07 hlen7, exbind_ok]
  have hget1 : pyGet (s.reg.set (7 : Int).toNat (sp + 1)) 7 = some (sp + 1) :=
    pyGet_set_self _ h07 hlen7
  simp only [@handle_overflow_valid
    { s with pc := w, reg := s.reg.set (7 : Int).toNat (sp + 1) } 7 (sp + 1) h07
    (by rw [List.length_set]; exact hlen7) hget1, exbind_ok, List.set_set]
  rfl

lemma cmp_spec {s : CPU} {a b va vb : Int}
    (hva : pyGet s.reg a = some va) (hvb : pyGet s.reg b = some vb) :
    op_cmp a b s = .ok { s with fl := (s.fl &&& 248) |||
      (if va = vb then 1 else if va < vb then 4 else 2) } := by
  simp only [op_cmp, pyGetE_ok hva, pyGetE_ok hvb, exbind_ok]
  split_ifs <;> rfl

lemma add_spec {s : CPU} {a b va vb : Int} (ha0 : 0 ≤ a) (ha8 : a < (s.reg.length : Int))
    (hva : pyGet s.reg a = some va) (hvb : pyGet s.reg b = some vb) :
    op_add a b s = .ok { s with reg := s.reg.set a.toNat (va + vb) } := by
  simp only [op_add, pyGetE_ok hva, pyGetE_ok hvb, exbind_ok, setRegE_valid (va + vb) ha0 ha8]

lemma jeq_taken {s : CPU} {r v : Int} (hfl : s.fl &&& 1 ≠ 0)
    (hv : pyGet s.reg r = some v) : op_jeq r s = .ok { s with pc := v } := by
  simp only [op_jeq, if_pos hfl, pyGetE_ok hv, exbind_ok]

lemma jeq_skip {s : CPU} (r : Int) (hfl : s.fl &&& 1 = 0) :
    op_jeq r s = .ok { s with pc := s.pc + 2 } := by
  simp only [op_jeq, if_neg (not_not_intro hfl)]

lemma jge_taken {s : CPU} {r v : Int} (hfl : s.fl &&& 3 ≠ 0)
    (hv : pyGet s.reg r = some v) : op_jge r s = .ok { s with pc := v } := by
  simp only [op_jge, if_pos hfl, pyGetE_ok hv, exbind_ok]

lemma jge_skip {s : CPU} (r : Int) (hfl : s.fl &&& 3 = 0) :
    op_jge r s = .ok { s with pc := s.pc + 2 } := by
  simp only [op_jge, if_neg (not_not_intro hfl)]

lemma jgt_taken {s : CPU} {r v : Int} (hfl : s.fl &&& 2 ≠ 0)
    (hv : pyGet s.reg r = some v) : op_jgt r s = .ok { s with pc := v } := by
  simp only [op_jgt, if_pos hfl, pyGetE_ok hv, exbind_ok]

lemma jgt_skip {s : CPU} (r : Int) (hfl : s.fl &&& 2 = 0) :
    op_jgt r s = .ok { s with pc := s.pc + 2 } := by
  simp only [op_jgt, if_neg (not_not_intro hfl)]

lemma jle_taken {s : CPU} {r v : Int} (hfl : s.fl &&& 5 ≠ 0)
    (hv : pyGet s.reg r = some v) : op_jle r s = .ok { s with pc := v } := by
  simp only [op_jle, if_pos hfl, pyGetE_ok hv, exbind_ok]

lemma jle_skip {s : CPU} (r : Int) (hfl : s.fl &&& 5 = 0) :
    op_jle r s = .ok { s with pc := s.pc + 2 } := by
  simp only [op_jle, if_neg (not_not_intro hfl)]

lemma jlt_taken {s : CPU} {r v : Int} (hfl : s.fl &&& 4 ≠ 0)
    (hv : pyGet s.reg r = some v) : op_jlt r s = .ok { s with pc := v } := by
  simp only [op_jlt, if_pos hfl, pyGetE_ok hv, exbind_ok]

lemma jlt_skip {s : CPU} (r : Int) (hfl : s.fl &&& 4 = 0) :
    op_jlt r s = .ok { s with pc := s.pc + 2 } := by
  simp only [op_jlt, if_neg (not_not_intro hfl)]

lemma jne_taken {s : CPU} {r v : Int} (hfl : s.fl &&& 1 = 0)
    (hv : pyGet s.reg r = some v) : op_jne r s = .ok { s with pc := v } := by
  simp only [op_jne, if_neg (not_not_intro hfl), pyGetE_ok hv, exbind_ok]

lemma jne_skip {s : CPU} (r : Int) (hfl : s.fl &&& 1 ≠ 0) :
    op_jne r s = .ok { s with pc := s.pc + 2 } := by
  simp only [op_jne, if_pos hfl]

/-- C1 -/
theorem cmp_then_conditional_jumps (s : CPU) (a b r va vb rv : Int)
    (hva : pyGet s.reg a = some va) (hvb : pyGet s.reg b = some vb)
    (hrv : pyGet s.reg r = some rv) :
    ∃ sc, op_cmp a b s = .ok sc ∧ sc.pc = s.pc ∧
      op_jeq r sc = .ok { sc with pc := if va = vb then rv else sc.pc + 2 } ∧
      op_jne r sc = .ok { sc with pc := if va ≠ vb then rv else sc.pc + 2 } ∧
      op_jgt r sc = .ok { sc with pc := if va > vb then rv else sc.pc + 2 } ∧
      op_jlt r sc = .ok { sc with pc := if va < vb then rv else sc.pc + 2 } ∧
      op_jge r sc = .ok { sc with pc := if va ≥ vb then rv else sc.pc + 2 } ∧
      op_jle r sc = .ok { sc with pc := if va ≤ vb then rv else sc.pc + 2 } := by
  refine ⟨_, cmp_spec hva hvb, rfl, ?_, ?_, ?_, ?_, ?_, ?_⟩ <;>
    rcases lt_trichotomy va vb with h | h | h
  -- JEQ
  · simp only [if_neg (ne_of_lt h), if_pos h]
    exact jeq_skip r (by rw [land_lor_mask _ _ _ (by norm_num)]; decide)
  · simp only [if_pos h]
    subst h
    refine jeq_taken ?_ hrv
    rw [land_lor_mask _ _ _ (by norm_num)]
    decide
  · simp only [if_neg (ne_of_gt h), if_neg (lt_asymm h)]
    exact jeq_skip r (by rw [land_lor_mask _ _ _ (by norm_num)]; decide)
  -- JNE
  · simp only [if_neg (ne_of_lt h), if_pos h, if_pos (ne_of_lt h)]
    exact jne_taken (by rw [land_lor_mask _ _ _ (by norm_num)]; decide) hrv
  · subst h
    simp only [if_pos (show va = va from rfl), if_neg (not_not_intro (show va = va from rfl))]
    exact jne_skip r (by rw [land_lor_mask _ _ _ (by norm_num), if_pos trivial]; decide)
  · simp only [if_neg (ne_of_gt h), if_neg (lt_asymm h), if_pos (ne_of_gt h)]
    exact jne_taken (by rw [land_lor_mask _ _ _ (by norm_num)]; decide) hrv
  -- JGT
  · simp only [if_neg (ne_of_lt h), if_pos h, if_neg (by omega : ¬va > vb)]
    exact jgt_skip r (by rw [land_lor_mask _ _ _ (by norm_num)]; decide)
  · subst h
    simp only [if_pos (show va = va from rfl), if_neg (show ¬va > va by omega)]
    exact jgt_skip r (by rw [land_lor_mask _ _ _ (by norm_num)]; decide)
  · simp only [if_neg (ne_of_gt h), if_neg (lt_asymm h), if_pos h]
    exact jgt_taken (by rw [land_lor_mask _ _ _ (by norm_num)]; decide) hrv
  -- JLT
  · simp only [if_neg (ne_of_lt h), if_pos h]
    exact jlt_taken (by rw [land_lor_mask _ _ _ (by norm_num)]; decide) hrv
  · subst h
    simp only [if_pos (show va = va from rfl), if_neg (show ¬va < va by omega)]
    exact jlt_skip r (by rw [land_lor_mask _ _ _ (by norm_num)]; decide)
  · simp only [if_neg (ne_of_gt h), if_neg (lt_asymm h)]
    exact jlt_skip r (by rw [land_lor_mask _ _ _ (by norm_num)]; decide)
  -- JGE
  · simp only [if_neg (ne_of_lt h), if_pos h, if_neg (by omega : ¬va ≥ vb)]
    exact jge_skip r (by rw [land_lor_mask _ _ _ (by norm_num)]; decide)
  · subst h
    simp only [if_pos (show va = va from rfl), if_pos (le_refl va)]
    refine jge_taken ?_ hrv
    rw [land_lor_mask _ _ _ (by norm_num), if_pos trivial]
    decide
  · simp only [if_neg (ne_of_gt h), if_neg (lt_asymm h), if_pos (le_of_lt h)]
    exact jge_taken (by rw [land_lor_mask _ _ _ (by norm_num)]; decide) hrv
  -- JLE
  · simp only [if_neg (ne_of_lt h), if_pos h, if_pos (le_of_lt h)]
    exact jle_taken (by rw [land_lor_mask _ _ _ (by norm_num)]; decide) hrv
  · subst h
    simp only [if_pos (show va = va from rfl), if_pos (le_refl va)]
    refine jle_taken ?_ hrv
    rw [land_lor_mask _ _ _ (by norm_num), if_pos trivial]
    decide
  · simp only [if_neg (ne_of_gt h), if_neg (lt_asymm h), if_neg (by omega : ¬va ≤ vb)]
    exact jle_skip r (by rw [land_lor_mask _ _ _ (by norm_num)]; decide)

lemma pyGet_total {l : List Int} {i : Int} (h0 : 0 ≤ i) (h1 : i < (l.length : Int)) :
    ∃ v, pyGet l i = some v := by
  rw [pyGet_valid h0 h1]
  have hlt : i.toNat < l.length := by omega
  exact ⟨l.get ⟨i.toNat, hlt⟩, List.get?_eq_get hlt⟩

lemma clamp_roundtrip {sp : Int} (h0 : 0 ≤ sp) (h255 : sp ≤ 255) :
    clampVal (clampVal (sp - 1) + 1) = sp := by
  unfold clampVal
  split_ifs <;> omega

/-- Witness machine state: a fresh CPU with a few distinct register values. -/
def w1 : CPU :=
  { reg := [5, 9, 3, 0, 0, 0, 0, 0xF4]
    ram := List.replicate 256 0
    pc := 0
    ir := 0
    fl := 0
    running := true }

/-- C1 witness -/
theorem cmp_then_conditional_jumps_witness :
    ∃ sc, op_cmp 0 1 w1 = .ok sc ∧ sc.pc = w1.pc ∧
      op_jeq 2 sc = .ok { sc with pc := if (5 : Int) = 9 then 3 else sc.pc + 2 } ∧
      op_jne 2 sc = .ok { sc with pc := if (5 : Int) ≠ 9 then 3 else sc.pc + 2 } ∧
      op_jgt 2 sc = .ok { sc with pc := if (5 : Int) > 9 then 3 else sc.pc + 2 } ∧
      op_jlt 2 sc = .ok { sc with pc := if (5 : Int) < 9 then 3 else sc.pc + 2 } ∧
      op_jge 2 sc = .ok { sc with pc := if (5 : Int) ≥ 9 then 3 else sc.pc + 2 } ∧
      op_jle 2 sc = .ok { sc with pc := if (5 : Int) ≤ 9 then 3 else sc.pc + 2 } :=
  cmp_then_conditional_jumps w1 0 1 2 5 9 3 (by decide) (by decide) (by decide)

/-- The state used in the C2 failing input: register 0 holds 255. -/
def c2inc : CPU :=
  { reg := [255, 0, 0, 0, 0, 0, 0, 0xF4]
    ram := List.replicate 256 0
    pc := 0
    ir := 0
    fl := 0
    running := true }

/-- The state used for the C2 DEC side: register 0 holds 0. -/
def c2dec : CPU :=
  { reg := [0, 0, 0, 0, 0, 0, 0, 0xF4]
    ram := List.replicate 256 0
    pc := 0
    ir := 0
    fl := 0
    running := true }

set_option maxRecDepth 4000 in
/-- C2 (code bug): `_inc`/`_dec` pass the new register *value* instead of the
register *index* to `handle_overflow`, so INC on a register holding 255 raises
`IndexError` (the clamp indexes `reg[256]`) instead of wrapping to 0, and DEC
on a register holding 0 leaves the register at -1 (the clamp is applied to
`reg[-1]`, i.e. `reg[7]`) instead of wrapping to 255. -/
theorem inc_dec_clamp_misapplied :
    op_inc 0 c2inc = .error "IndexError" ∧
    op_dec 0 c2dec = .ok { c2dec with reg := [-1, 0, 0, 0, 0, 0, 0, 0xF4] } := by
  constructor
  · decide
  · decide

/-- After `handle_overflow 7` on an 8-register state, `reg[7]` is in [0,255]. -/
lemma sp_range_handle_overflow {s : CPU} (h8 : s.reg.length = 8) :
    POk (fun t => ∃ w, pyGet t.reg 7 = some w ∧ 0 ≤ w ∧ w ≤ 255)
      (handle_overflow 7 s) := by
  have hlen7 : (7 : Int) < (s.reg.length : Int) := by rw [h8]; norm_num
  obtain ⟨v, hv⟩ := pyGet_total (l := s.reg) (i := 7) (by norm_num) hlen7
  refine pok_intro fun t ht => ?_
  rw [handle_overflow_valid (by norm_num) hlen7 hv] at ht
  cases ht
  exact ⟨clampVal v, pyGet_set_self _ (by norm_num) hlen7, clampVal_nonneg _, clampVal_le _⟩

lemma sp_range_push (r : Int) {s : CPU} (h8 : s.reg.length = 8) :
    POk (fun t => ∃ w, pyGet t.reg 7 = some w ∧ 0 ≤ w ∧ w ≤ 255) (op_push r s) := by
  unfold op_push
  apply pok_bindv
  intro sp
  apply pok_binds (pok_setRegE _ _ _)
  intro s1 h1
  apply pok_binds (sp_range_handle_overflow (by rw [h1.2.2.2.2.2]; exact h8))
  intro s2 h2
  apply pok_bindv
  intro sp2
  apply pok_bindv
  intro v
  refine pok_mono (fun t ht => ?_) (pok_ram_write _ _ _)
  rw [ht.1]
  exact h2

lemma sp_range_pop (r : Int) {s : CPU} (h8 : s.reg.length = 8) :
    POk (fun t => ∃ w, pyGet t.reg 7 = some w ∧ 0 ≤ w ∧ w ≤ 255) (op_pop r s) := by
  unfold op_pop
  apply pok_bindv
  intro sp
  apply pok_bindv
  intro v
  apply pok_binds (pok_setRegE _ _ _)
  intro s1 h1
  apply pok_bindv
  intro sp1
  apply pok_binds (pok_setRegE _ _ _)
  intro s2 h2
  exact sp_range_handle_overflow (by rw [h2.2.2.2.2.2, h1.2.2.2.2.2]; exact h8)

lemma sp_range_call (r : Int) {s : CPU} (h8 : s.reg.length = 8) :
    POk (fun t => ∃ w, pyGet t.reg 7 = some w ∧ 0 ≤ w ∧ w ≤ 255) (op_call r s) := by
  unfold op_call
  apply pok_bindv
  intro sp
  apply pok_binds (pok_setRegE _ _ _)
  intro s1 h1
  apply pok_binds (sp_range_handle_overflow (by rw [h1.2.2.2.2.2]; exact h8))
  intro s2 h2
  apply pok_bindv
  intro sp2
  apply pok_binds (pok_ram_write _ _ _)
  intro s3 h3
  apply pok_bindv
  intro v
  refine pok_ok ?_
  show ∃ w, pyGet ({ s3 with pc := v } : CPU).reg 7 = some w ∧ 0 ≤ w ∧ w ≤ 255
  rw [show ({ s3 with pc := v } : CPU).reg = s3.reg from rfl, h3.1]
  exact h2

lemma sp_range_ret {s : CPU} (h8 : s.reg.length = 8) :
    POk (fun t => ∃ w, pyGet t.reg 7 = some w ∧ 0 ≤ w ∧ w ≤ 255) (op_ret s) := by
  unfold op_ret
  apply pok_bindv
  intro sp
  apply pok_bindv
  intro v
  dsimp only
  apply pok_bindv
  intro sp1
  apply pok_binds (pok_setRegE _ _ _)
  intro s2 h2
  exact sp_range_handle_overflow (by rw [h2.2.2.2.2.2]; exact h8)

/-- The pre-state of the C3 ADD example: two registers holding 200. -/
def c3add : CPU :=
  { reg := [200, 200, 0, 0, 0, 0, 0, 0xF4]
    ram := List.replicate 256 0
    pc := 0
    ir := 0
    fl := 0
    running := true }

set_option maxRecDepth 4000 in
/-- C3: the shared clamp keeps `reg[7]` in [0,255] after every PUSH, POP,
CALL and RET that completes; it is not applied after ADD, where two registers
holding 200 leave the destination at 400 > 255. -/
theorem sp_clamped_stack_ops_not_alu (s : CPU) (r : Int) (h8 : s.reg.length = 8) :
    (∀ t, op_push r s = .ok t → ∃ w, pyGet t.reg 7 = some w ∧ 0 ≤ w ∧ w ≤ 255) ∧
    (∀ t, op_pop r s = .ok t → ∃ w, pyGet t.reg 7 = some w ∧ 0 ≤ w ∧ w ≤ 255) ∧
    (∀ t, op_call r s = .ok t → ∃ w, pyGet t.reg 7 = some w ∧ 0 ≤ w ∧ w ≤ 255) ∧
    (∀ t, op_ret s = .ok t → ∃ w, pyGet t.reg 7 = some w ∧ 0 ≤ w ∧ w ≤ 255) ∧
    (op_add 0 1 c3add).map (fun t => pyGet t.reg 0) = .ok (some 400) ∧
    ¬((400 : Int) ≤ 255) := by
  refine ⟨fun t ht => pok_elim (sp_range_push r h8) ht,
    fun t ht => pok_elim (sp_range_pop r h8) ht,
    fun t ht => pok_elim (sp_range_call r h8) ht,
    fun t ht => pok_elim (sp_range_ret h8) ht, by decide, by decide⟩

/-- C3 witness -/
theorem sp_clamped_stack_ops_not_alu_witness :
    (∀ t, op_push 0 w1 = .ok t → ∃ w, pyGet t.reg 7 = some w ∧ 0 ≤ w ∧ w ≤ 255) ∧
    (∀ t, op_pop 0 w1 = .ok t → ∃ w, pyGet t.reg 7 = some w ∧ 0 ≤ w ∧ w ≤ 255) ∧
    (∀ t, op_call 0 w1 = .ok t → ∃ w, pyGet t.reg 7 = some w ∧ 0 ≤ w ∧ w ≤ 255) ∧
    (∀ t, op_ret w1 = .ok t → ∃ w, pyGet t.reg 7 = some w ∧ 0 ≤ w ∧ w ≤ 255) ∧
    (op_add 0 1 c3add).map (fun t => pyGet t.reg 0) = .ok (some 400) ∧
    ¬((400 : Int) ≤ 255) :=
  sp_clamped_stack_ops_not_alu w1 0 (by decide)

/-- The pre-state of the C4 counterexample: `reg[0] = 5`, SP = 0xF4. -/
def c4s : CPU :=
  { reg := [5, 0, 0, 0, 0, 0, 0, 0xF4]
    ram := List.replicate 256 0
    pc := 0
    ir := 0
    fl := 0
    running := true }

set_option maxRecDepth 8000 in
/-- C4 counterexample: PUSH(0) then POP(7) with `reg[0] = 5`, SP = 244 leaves
`reg[7] = 6` — neither the pushed value 5 (the claimed `reg[r']`) nor the
pre-PUSH stack pointer 244 — because POP(7) overwrites SP with the popped
value and then increments it. -/
theorem push_pop_counterexample :
    ((op_push 0 c4s >>= op_pop 7).map fun t => pyGet t.reg 7) = .ok (some 6) ∧
    pyGet c4s.reg 0 = some 5 ∧ pyGet c4s.reg 7 = some 244 ∧
    (6 : Int) ≠ 5 ∧ (6 : Int) ≠ 244 := by
  refine ⟨by decide, by decide, by decide, by decide, by decide⟩

set_option maxRecDepth 8000 in
/-- C4 (amended): for target registers other than the stack-pointer register 7
and a stack pointer already in [0,255], PUSH(r) then POP(r') restores the
pushed value into r' and returns SP to its pre-PUSH value, including at the
0/255 wrap boundary. -/
theorem push_then_pop_roundtrip (s : CPU) (r rp sp v : Int)
    (h8 : s.reg.length = 8) (hram : s.ram.length = 256)
    (hr0 : 0 ≤ r) (hr8 : r < 8) (hrne : r ≠ 7)
    (hp0 : 0 ≤ rp) (hp8 : rp < 8) (hpne : rp ≠ 7)
    (hsp : pyGet s.reg 7 = some sp) (hsp0 : 0 ≤ sp) (hsp255 : sp ≤ 255)
    (hv : pyGet s.reg r = some v) :
    ∃ t u, op_push r s = .ok t ∧ op_pop rp t = .ok u ∧
      pyGet u.reg rp = some v ∧ pyGet u.reg 7 = some sp := by
  have hpush := push_spec h8 hram hr0 hr8 hrne hsp hv
  have h8t : ((s.reg.set 7 (clampVal (sp - 1))) : List Int).length = 8 := by
    rw [List.length_set]
    exact h8
  have hspt : pyGet (s.reg.set 7 (clampVal (sp - 1))) 7 = some (clampVal (sp - 1)) := by
    have := pyGet_set_self (l := s.reg) (i := 7) (clampVal (sp - 1)) (by norm_num)
      (by rw [h8]; norm_num)
    simpa using this
  have hwT : pyGet (s.ram.set (clampVal (sp - 1)).toNat v) (clampVal (sp - 1)) = some v :=
    pyGet_set_self v (clampVal_nonneg _)
      (by rw [hram]; have := clampVal_le (sp - 1); omega)
  have hpop := @pop_spec
    { s with
      reg := s.reg.set 7 (clampVal (sp - 1))
      ram := s.ram.set (clampVal (sp - 1)).toNat v }
    rp (clampVal (sp - 1)) v h8t hp0 hp8 hpne hspt hwT
  refine ⟨_, _, hpush, hpop, ?_, ?_⟩
  · show pyGet (((s.reg.set 7 (clampVal (sp - 1))).set rp.toNat v).set 7
      (clampVal (clampVal (sp - 1) + 1))) rp = some v
    rw [pyGet_set_other 7 _ hp0
      (by rw [List.length_set, List.length_set, h8]; exact_mod_cast hp8)
      (by omega : rp.toNat ≠ 7)]
    exact pyGet_set_self v hp0
      (by rw [List.length_set, h8]; exact_mod_cast hp8)
  · show pyGet (((s.reg.set 7 (clampVal (sp - 1))).set rp.toNat v).set 7
      (clampVal (clampVal (sp - 1) + 1))) 7 = some sp
    have l3 : pyGet (((s.reg.set 7 (clampVal (sp - 1))).set rp.toNat v).set 7
        (clampVal (clampVal (sp - 1) + 1))) 7
        = some (clampVal (clampVal (sp - 1) + 1)) := pyGet_set_self
      (l := (s.reg.set 7 (clampVal (sp - 1))).set rp.toNat v) (i := 7)
      (clampVal (clampVal (sp - 1) + 1)) (by norm_num)
      (by rw [List.length_set, List.length_set, h8]; norm_num)
    rw [l3, clamp_roundtrip hsp0 hsp255]

set_option maxRecDepth 8000 in
/-- C4 witness -/
theorem push_then_pop_roundtrip_witness :
    ∃ t u, op_push 0 w1 = .ok t ∧ op_pop 2 t = .ok u ∧
      pyGet u.reg 2 = some 5 ∧ pyGet u.reg 7 = some 244 :=
  push_then_pop_roundtrip w1 0 2 244 5 (by decide) (by decide) (by decide) (by decide)
    (by decide) (by decide) (by decide) (by decide) (by decide) (by decide) (by decide)
    (by decide)

/-- C5: CALL(r) decrements SP (with the clamp), stores `pc + 2` at the new top
of stack, and sets PC to the value register r then holds (for r ≠ 7 this is
the pre-CALL `reg[r]`); RET pops that address straight into PC, so a CALL
whose callee returns with the stack undisturbed resumes at `call_address + 2`. -/
theorem call_then_ret (s : CPU) (r sp vr : Int)
    (h8 : s.reg.length = 8) (hram : s.ram.length = 256) (hr0 : 0 ≤ r) (hr8 : r < 8)
    (hsp : pyGet s.reg 7 = some sp) (hvr : pyGet s.reg r = some vr) :
    ∃ t, op_call r s = .ok t ∧
      pyGet t.reg 7 = some (clampVal (sp - 1)) ∧
      pyGet t.ram (clampVal (sp - 1)) = some (s.pc + 2) ∧
      pyGet t.reg r = some t.pc ∧
      (r ≠ 7 → t.pc = vr) ∧
      ∃ u, op_ret t = .ok u ∧ u.pc = s.pc + 2 ∧
        pyGet u.reg 7 = some (clampVal (clampVal (sp - 1) + 1)) := by
  have hlen7 : (7 : Int) < (s.reg.length : Int) := by rw [h8]; norm_num
  have hlenr : r < (s.reg.length : Int) := by rw [h8]; exact_mod_cast hr8
  have hlenSet : ((s.reg.set 7 (clampVal (sp - 1))) : List Int).length = s.reg.length :=
    List.length_set ..
  -- the value register r holds after the SP update
  obtain ⟨w, hw⟩ : ∃ w, pyGet (s.reg.set 7 (clampVal (sp - 1))) r = some w :=
    pyGet_total hr0 (by rw [hlenSet]; exact hlenr)
  have hwvr : r ≠ 7 → w = vr := by
    intro hne
    have := pyGet_set_other (l := s.reg) (i := r) 7 (clampVal (sp - 1)) hr0 hlenr
      (by omega)
    rw [this, hvr] at hw
    exact (Option.some_inj.mp hw).symm
  have hcall := call_spec h8 hram hr0 hr8 hsp hw
  refine ⟨_, hcall, ?_, ?_, ?_, ?_, ?_⟩
  · show pyGet (s.reg.set 7 (clampVal (sp - 1))) 7 = some (clampVal (sp - 1))
    have := pyGet_set_self (l := s.reg) (i := 7) (clampVal (sp - 1)) (by norm_num) hlen7
    simpa using this
  · show pyGet (s.ram.set (clampVal (sp - 1)).toNat (s.pc + 2)) (clampVal (sp - 1))
      = some (s.pc + 2)
    exact pyGet_set_self _ (clampVal_nonneg _)
      (by rw [hram]; have := clampVal_le (sp - 1); omega)
  · exact hw
  · intro hne
    exact (hwvr hne).symm ▸ rfl
  · -- RET on the post-CALL state
    have hspT : pyGet (s.reg.set 7 (clampVal (sp - 1))) 7 = some (clampVal (sp - 1)) := by
      have := pyGet_set_self (l := s.reg) (i := 7) (clampVal (sp - 1)) (by norm_num) hlen7
      simpa using this
    have hwT : pyGet (s.ram.set (clampVal (sp - 1)).toNat (s.pc + 2)) (clampVal (sp - 1))
        = some (s.pc + 2) :=
      pyGet_set_self _ (clampVal_nonneg _)
        (by rw [hram]; have := clampVal_le (sp - 1); omega)
    have hret := @ret_spec
      { s with
        reg := s.reg.set 7 (clampVal (sp - 1))
        ram := s.ram.set (clampVal (sp - 1)).toNat (s.pc + 2)
        pc := w }
      (clampVal (sp - 1)) (s.pc + 2) (by rw [show ({ s with
        reg := s.reg.set 7 (clampVal (sp - 1))
        ram := s.ram.set (clampVal (sp - 1)).toNat (s.pc + 2)
        pc := w } : CPU).reg = s.reg.set 7 (clampVal (sp - 1)) from rfl, hlenSet, h8])
      hspT hwT
    refine ⟨_, hret, rfl, ?_⟩
    show pyGet ((s.reg.set 7 (clampVal (sp - 1))).set 7
      (clampVal (clampVal (sp - 1) + 1))) 7 = some (clampVal (clampVal (sp - 1) + 1))
    have := pyGet_set_self (l := s.reg.set 7 (clampVal (sp - 1))) (i := 7)
      (clampVal (clampVal (sp - 1) + 1)) (by norm_num) (by rw [hlenSet]; exact hlen7)
    simpa using this

set_option maxRecDepth 8000 in
/-- C5 witness -/
theorem call_then_ret_witness :
    ∃ t, op_call 2 w1 = .ok t ∧
      pyGet t.reg 7 = some (clampVal (244 - 1)) ∧
      pyGet t.ram (clampVal (244 - 1)) = some (w1.pc + 2) ∧
      pyGet t.reg 2 = some t.pc ∧
      ((2 : Int) ≠ 7 → t.pc = 3) ∧
      ∃ u, op_ret t = .ok u ∧ u.pc = w1.pc + 2 ∧
        pyGet u.reg 7 = some (clampVal (clampVal (244 - 1) + 1)) :=
  call_then_ret w1 2 244 3 (by decide) (by decide) (by decide) (by decide) (by decide)
    (by decide)

/-- C6: CMP clears the three comparison bits and sets exactly one — Equal if
the values are equal, else Less-than if the first is smaller, else
Greater-than — and no other opcode handler writes the flags register. -/
theorem cmp_flags_exclusive (s : CPU) (a b va vb : Int)
    (hva : pyGet s.reg a = some va) (hvb : pyGet s.reg b = some vb) :
    (∃ sc, op_cmp a b s = .ok sc ∧
      sc.fl &&& 7 = (if va = vb then 1 else if va < vb then 4 else 2)) ∧
    (∀ s2 t, op_hlt s2 = .ok t → t.fl = s2.fl) ∧
    (∀ ra rb s2 t, op_ld ra rb s2 = .ok t → t.fl = s2.fl) ∧
    (∀ r i s2 t, op_ldi r i s2 = .ok t → t.fl = s2.fl) ∧
    (∀ s2 t, op_nop s2 = .ok t → t.fl = s2.fl) ∧
    (∀ r s2 t, op_pop r s2 = .ok t → t.fl = s2.fl) ∧
    (∀ r s2 t, op_prn r s2 = .ok t → t.fl = s2.fl) ∧
    (∀ r s2 t, op_push r s2 = .ok t → t.fl = s2.fl) ∧
    (∀ r s2 t, op_call r s2 = .ok t → t.fl = s2.fl) ∧
    (∀ r s2 t, op_jeq r s2 = .ok t → t.fl = s2.fl) ∧
    (∀ r s2 t, op_jge r s2 = .ok t → t.fl = s2.fl) ∧
    (∀ r s2 t, op_jgt r s2 = .ok t → t.fl = s2.fl) ∧
    (∀ r s2 t, op_jle r s2 = .ok t → t.fl = s2.fl) ∧
    (∀ r s2 t, op_jlt r s2 = .ok t → t.fl = s2.fl) ∧
    (∀ r s2 t, op_jmp r s2 = .ok t → t.fl = s2.fl) ∧
    (∀ r s2 t, op_jne r s2 = .ok t → t.fl = s2.fl) ∧
    (∀ s2 t, op_ret s2 = .ok t → t.fl = s2.fl) ∧
    (∀ ra rb s2 t, op_add ra rb s2 = .ok t → t.fl = s2.fl) ∧
    (∀ ra rb s2 t, op_and ra rb s2 = .ok t → t.fl = s2.fl) ∧
    (∀ ra s2 t, op_dec ra s2 = .ok t → t.fl = s2.fl) ∧
    (∀ ra s2 t, op_inc ra s2 = .ok t → t.fl = s2.fl) ∧
    (∀ ra rb s2 t, op_mul ra rb s2 = .ok t → t.fl = s2.fl) := by
  refine ⟨⟨_, cmp_spec hva hvb, ?_⟩,
    fun s2 t ht => (pok_elim (frame_hlt s2) ht).2.2.2,
    fun ra rb s2 t ht => (pok_elim (frame_ld ra rb s2) ht).2.2.2.1,
    fun r i s2 t ht => (pok_elim (frame_ldi r i s2) ht).2.2.2.1,
    fun s2 t ht => by rw [pok_elim (frame_nop s2) ht],
    fun r s2 t ht => (pok_elim (frame_pop r s2) ht).2.2.2.1,
    fun r s2 t ht => by rw [pok_elim (frame_prn r s2) ht],
    fun r s2 t ht => (pok_elim (frame_push r s2) ht).2.2.1,
    fun r s2 t ht => (pok_elim (frame_call r s2) ht).2.1,
    fun r s2 t ht => (pok_elim (frame_jeq r s2) ht).2.2.2.1,
    fun r s2 t ht => (pok_elim (frame_jge r s2) ht).2.2.2.1,
    fun r s2 t ht => (pok_elim (frame_jgt r s2) ht).2.2.2.1,
    fun r s2 t ht => (pok_elim (frame_jle r s2) ht).2.2.2.1,
    fun r s2 t ht => (pok_elim (frame_jlt r s2) ht).2.2.2.1,
    fun r s2 t ht => (pok_elim (frame_jmp r s2) ht).2.2.2.1,
    fun r s2 t ht => (pok_elim (frame_jne r s2) ht).2.2.2.1,
    fun s2 t ht => (pok_elim (frame_ret s2) ht).2.2.1,
    fun ra rb s2 t ht => (pok_elim (frame_add ra rb s2) ht).2.2.2.1,
    fun ra rb s2 t ht => (pok_elim (frame_and ra rb s2) ht).2.2.2.1,
    fun ra s2 t ht => (pok_elim (frame_dec ra s2) ht).2.2.2.1,
    fun ra s2 t ht => (pok_elim (frame_inc ra s2) ht).2.2.2.1,
    fun ra rb s2 t ht => (pok_elim (frame_mul ra rb s2) ht).2.2.2.1⟩
  rw [land_lor_mask _ _ _ (by norm_num)]
  rcases lt_trichotomy va vb with h | h | h
  · simp only [if_neg (ne_of_lt h), if_pos h]
    decide
  · rw [if_pos h]
    decide
  · simp only [if_neg (ne_of_gt h), if_neg (lt_asymm h)]
    decide

/-- C6 witness -/
theorem cmp_flags_exclusive_witness :
    (∃ sc, op_cmp 0 1 w1 = .ok sc ∧
      sc.fl &&& 7 = (if (5 : Int) = 9 then 1 else if (5 : Int) < 9 then 4 else 2)) ∧
    (∀ s2 t, op_hlt s2 = .ok t → t.fl = s2.fl) ∧
    (∀ ra rb s2 t, op_ld ra rb s2 = .ok t → t.fl = s2.fl) ∧
    (∀ r i s2 t, op_ldi r i s2 = .ok t → t.fl = s2.fl) ∧
    (∀ s2 t, op_nop s2 = .ok t → t.fl = s2.fl) ∧
    (∀ r s2 t, op_pop r s2 = .ok t → t.fl = s2.fl) ∧
    (∀ r s2 t, op_prn r s2 = .ok t → t.fl = s2.fl) ∧
    (∀ r s2 t, op_push r s2 = .ok t → t.fl = s2.fl) ∧
    (∀ r s2 t, op_call r s2 = .ok t → t.fl = s2.fl) ∧
    (∀ r s2 t, op_jeq r s2 = .ok t → t.fl = s2.fl) ∧
    (∀ r s2 t, op_jge r s2 = .ok t → t.fl = s2.fl) ∧
    (∀ r s2 t, op_jgt r s2 = .ok t → t.fl = s2.fl) ∧
    (∀ r s2 t, op_jle r s2 = .ok t → t.fl = s2.fl) ∧
    (∀ r s2 t, op_jlt r s2 = .ok t → t.fl = s2.fl) ∧
    (∀ r s2 t, op_jmp r s2 = .ok t → t.fl = s2.fl) ∧
    (∀ r s2 t, op_jne r s2 = .ok t → t.fl = s2.fl) ∧
    (∀ s2 t, op_ret s2 = .ok t → t.fl = s2.fl) ∧
    (∀ ra rb s2 t, op_add ra rb s2 = .ok t → t.fl = s2.fl) ∧
    (∀ ra rb s2 t, op_and ra rb s2 = .ok t → t.fl = s2.fl) ∧
    (∀ ra s2 t, op_dec ra s2 = .ok t → t.fl = s2.fl) ∧
    (∀ ra s2 t, op_inc ra s2 = .ok t → t.fl = s2.fl) ∧
    (∀ ra rb s2 t, op_mul ra rb s2 = .ok t → t.fl = s2.fl) :=
  cmp_flags_exclusive w1 0 1 5 9 (by decide) (by decide)

lemma fetchFrom_ok_of_bounds {ram : List Int} {pc : Int} (n i : Nat)
    (h0 : 0 ≤ pc) (hn : pc + i + n < (ram.length : Int)) :
    ∃ args, fetchFrom ram pc i n = .ok args := by
  induction n generalizing i with
  | zero => exact ⟨[], rfl⟩
  | succ m ih =>
    have hx0 : 0 ≤ pc + i + 1 := by positivity
    have hx1 : pc + i + 1 < (ram.length : Int) := by push_cast at hn ⊢; omega
    obtain ⟨v, hv⟩ := pyGet_total hx0 hx1
    obtain ⟨rest, hrest⟩ := ih (i + 1) (by push_cast at hn ⊢; omega)
    refine ⟨v :: rest, ?_⟩
    unfold fetchFrom
    rw [pyGetE_ok hv, exbind_ok, hrest, exbind_ok]

/-- C7: a fetched byte with no dispatch-table entry stops the run with the
lookup failure (`KeyError`); the cycle loop propagates it and does not
continue. -/
theorem unknown_opcode_fatal (s : CPU) (b : Int) (n : Nat)
    (hram : s.ram.length = 256) (hrun : s.running = true)
    (hpc0 : 0 ≤ s.pc) (hpc : s.pc ≤ 252)
    (hb : pyGet s.ram s.pc = some b) (hb0 : 0 ≤ b) (hb255 : b ≤ 255)
    (hmiss : op_table.find? (fun p => p.1 == b) = none) :
    step s = .error "KeyError" ∧ runFuel (n + 1) s = .error "KeyError" := by
  have hstep : step s = .error "KeyError" := by
    have hshift0 : 0 ≤ Int.ediv b 64 := Int.ediv_nonneg hb0 (by norm_num)
    have hdm : 64 * Int.ediv b 64 + Int.emod b 64 = b := Int.ediv_add_emod b 64
    have hm0 : 0 ≤ Int.emod b 64 := Int.emod_nonneg b (by norm_num)
    have hm1 : Int.emod b 64 < 64 := Int.emod_lt_of_pos b (by norm_num)
    have hshift3 : Int.ediv b 64 ≤ 3 := by omega
    have hbound : s.pc + (0 : Nat) + (Int.ediv b 64).toNat < (s.ram.length : Int) := by
      rw [hram]
      push_cast
      omega
    obtain ⟨args, hargs⟩ := fetchFrom_ok_of_bounds ((Int.ediv b 64).toNat) 0 hpc0 hbound
    have hargs2 : fetchArgs s.ram s.pc (Int.ediv b 64).toNat = .ok args := hargs
    have hlook : opLookup b = .error "KeyError" := by
      unfold opLookup
      rw [hmiss]
    simp only [step, ram_read_ok hb, exbind_ok, hargs2, hlook, exbind_error]
  refine ⟨hstep, ?_⟩
  unfold runFuel
  rw [if_pos hrun, hstep]
  rfl

/-- The C7 witness state: RAM cell 0 holds the unregistered opcode 0x03. -/
def c7s : CPU :=
  { reg := [0, 0, 0, 0, 0, 0, 0, 0xF4]
    ram := (List.replicate 256 0).set 0 3
    pc := 0
    ir := 0
    fl := 0
    running := true }

set_option maxRecDepth 8000 in
/-- C7 witness -/
theorem unknown_opcode_fatal_witness :
    step c7s = .error "KeyError" ∧ runFuel (0 + 1) c7s = .error "KeyError" :=
  unknown_opcode_fatal c7s 3 0 (by decide) (by decide) (by decide) (by decide)
    (by decide) (by decide) (by decide) rfl

/-- The binary-digit fold of `intBin` stays within `[0, (acc+1) * 2^len)`. -/
lemma binFold_bound (digs : List Char) : ∀ acc : Int, 0 ≤ acc →
    0 ≤ digs.foldl (fun a c => 2 * a + (if c = '1' then 1 else 0)) acc ∧
    digs.foldl (fun a c => 2 * a + (if c = '1' then 1 else 0)) acc
      < (acc + 1) * 2 ^ digs.length := by
  induction digs with
  | nil =>
    intro acc h0
    refine ⟨h0, ?_⟩
    simp only [List.foldl_nil, List.length_nil, pow_zero, mul_one]
    omega
  | cons c rest ih =>
    intro acc h0
    have hstep0 : 0 ≤ 2 * acc + (if c = '1' then 1 else 0) := by split_ifs <;> omega
    obtain ⟨ih0, ih1⟩ := ih (2 * acc + (if c = '1' then 1 else 0)) hstep0
    simp only [List.foldl_cons, List.length_cons]
    refine ⟨ih0, ?_⟩
    calc rest.foldl (fun a c => 2 * a + (if c = '1' then 1 else 0))
          (2 * acc + (if c = '1' then 1 else 0))
        < (2 * acc + (if c = '1' then 1 else 0) + 1) * 2 ^ rest.length := ih1
      _ ≤ (2 * (acc + 1)) * 2 ^ rest.length := by
          apply mul_le_mul_of_nonneg_right (by split_ifs <;> omega) (by positivity)
      _ = (acc + 1) * 2 ^ (rest.length + 1) := by
          rw [pow_succ]
          ring

/-- A value parsed by `intBin` from at most 8 characters is an 8-bit byte. -/
lemma intBin_range {cs : List Char} {v : Int} (h : intBin cs = some v)
    (hlen : cs.length ≤ 8) : 0 ≤ v ∧ v ≤ 255 := by
  simp only [intBin] at h
  split_ifs at h with hcond
  · cases h
    obtain ⟨h0, h1⟩ := binFold_bound (cs.takeWhile binDigit) 0 le_rfl
    have hdlen : (cs.takeWhile binDigit).length ≤ 8 :=
      le_trans (List.takeWhile_prefix binDigit).length_le hlen
    have hpow : (2 : Int) ^ (cs.takeWhile binDigit).length ≤ 2 ^ 8 :=
      pow_le_pow_right (by norm_num) hdlen
    have h256 : (2 : Int) ^ 8 = 256 := by norm_num
    constructor
    · exact h0
    · simp only [one_mul, zero_add] at h1
      omega

/-- Every program byte produced by the line parser is in [0,255]. -/
lemma parseLines_range {lines : List (List Char)} {prog : List Int}
    (h : parseLines lines = some prog) : ∀ v ∈ prog, 0 ≤ v ∧ v ≤ 255 := by
  induction lines generalizing prog with
  | nil =>
    unfold parseLines at h
    cases h
    intro v hv
    cases hv
  | cons line rest ih =>
    cases line with
    | nil =>
      unfold parseLines at h
      cases h
    | cons c cs =>
      unfold parseLines at h
      by_cases hc : binDigit c
      · rw [if_pos hc] at h
        cases hint : intBin ((c :: cs).take 8) with
        | none => rw [hint] at h; cases h
        | some v =>
          rw [hint] at h
          cases hrest : parseLines rest with
          | none => rw [hrest] at h; cases h
          | some prog2 =>
            rw [hrest] at h
            cases h
            intro x hx
            rcases List.mem_cons.mp hx with rfl | hx2
            · exact intBin_range hint (by rw [List.length_take]; omega)
            · exact ih hrest x hx2
      · rw [if_neg hc] at h
        exact ih h
  
lemma pySet_some_set {l : List Int} {i v : Int} {l2 : List Int}
    (h : pySet l i v = some l2) : ∃ j, l2 = l.set j v := by
  unfold pySet at h
  cases hj : pyIndex l.length i with
  | none => rw [hj] at h; cases h
  | some j =>
    rw [hj] at h
    cases h
    exact ⟨j, rfl⟩

/-- Loading in-range bytes into in-range RAM keeps every cell in range. -/
lemma loadLoop_range : ∀ (prog : List Int) (addr : Int) (ram ram2 : List Int),
    (∀ v ∈ prog, 0 ≤ v ∧ v ≤ 255) → (∀ v ∈ ram, 0 ≤ v ∧ v ≤ 255) →
    loadLoop prog addr ram = some ram2 → ∀ v ∈ ram2, 0 ≤ v ∧ v ≤ 255 := by
  intro prog
  induction prog with
  | nil =>
    intro addr ram ram2 hprog hram h
    unfold loadLoop at h
    cases h
    exact hram
  | cons x rest ih =>
    intro addr ram ram2 hprog hram h
    unfold loadLoop at h
    cases hset : pySet ram addr x with
    | none => rw [hset] at h; cases h
    | some ram1 =>
      rw [hset] at h
      refine ih (addr + 1) ram1 ram2 (fun v hv => hprog v (List.mem_cons_of_mem x hv))
        ?_ h
      obtain ⟨j, rfl⟩ := pySet_some_set hset
      intro v hv
      rcases List.mem_or_eq_of_mem_set hv with hv2 | rfl
      · exact hram v hv2
      · exact hprog _ (List.mem_cons_self _ _)

/-- The C8 counterexample pre-state: register 0 holds 400 (left unmasked by a
previous ADD), all RAM cells in range, SP = 0xF4. -/
def c8s : CPU :=
  { reg := [400, 0, 0, 0, 0, 0, 0, 0xF4]
    ram := List.replicate 256 0
    pc := 0
    ir := 0
    fl := 0
    running := true }

set_option maxRecDepth 8000 in
/-- C8 counterexample: from a state whose RAM cells are all bytes, PUSH(0)
with `reg[0] = 400` stores 400 at the new top of stack — RAM cell 0xF3 then
holds a value outside [0,255], so the invariant is not preserved by PUSH. -/
theorem ram_byte_invariant_counterexample :
    c8s.ram.all (fun v => decide (0 ≤ v ∧ v ≤ 255)) = true ∧
    ((op_push 0 c8s).map fun t => pyGet t.ram 0xF3) = .ok (some 400) ∧
    ¬((400 : Int) ≤ 255) := by
  refine ⟨by decide, by decide, by decide⟩

/-- C8 (amended): program load establishes that every RAM cell is in [0,255];
every instruction other than PUSH and CALL leaves RAM unchanged; PUSH
preserves the invariant when the pushed register value is itself in [0,255]
and CALL when `pc + 2` is; but PUSH stores the raw register value and CALL
stores `pc + 2` unmasked, so an out-of-range write is possible (see the
counterexample). -/
theorem ram_byte_invariant_amended :
    (∀ lines prog ram2, parseLines lines = some prog → loadProgram prog = some ram2 →
      ∀ v ∈ ram2, 0 ≤ v ∧ v ≤ 255) ∧
    (∀ s2 t, op_hlt s2 = .ok t → t.ram = s2.ram) ∧
    (∀ ra rb s2 t, op_ld ra rb s2 = .ok t → t.ram = s2.ram) ∧
    (∀ r i s2 t, op_ldi r i s2 = .ok t → t.ram = s2.ram) ∧
    (∀ s2 t, op_nop s2 = .ok t → t.ram = s2.ram) ∧
    (∀ r s2 t, op_pop r s2 = .ok t → t.ram = s2.ram) ∧
    (∀ r s2 t, op_prn r s2 = .ok t → t.ram = s2.ram) ∧
    (∀ r s2 t, op_jeq r s2 = .ok t → t.ram = s2.ram) ∧
    (∀ r s2 t, op_jge r s2 = .ok t → t.ram = s2.ram) ∧
    (∀ r s2 t, op_jgt r s2 = .ok t → t.ram = s2.ram) ∧
    (∀ r s2 t, op_jle r s2 = .ok t → t.ram = s2.ram) ∧
    (∀ r s2 t, op_jlt r s2 = .ok t → t.ram = s2.ram) ∧
    (∀ r s2 t, op_jmp r s2 = .ok t → t.ram = s2.ram) ∧
    (∀ r s2 t, op_jne r s2 = .ok t → t.ram = s2.ram) ∧
    (∀ s2 t, op_ret s2 = .ok t → t.ram = s2.ram) ∧
    (∀ ra rb s2 t, op_add ra rb s2 = .ok t → t.ram = s2.ram) ∧
    (∀ ra rb s2 t, op_and ra rb s2 = .ok t → t.ram = s2.ram) ∧
    (∀ ra rb s2 t, op_cmp ra rb s2 = .ok t → t.ram = s2.ram) ∧
    (∀ ra s2 t, op_dec ra s2 = .ok t → t.ram = s2.ram) ∧
    (∀ ra s2 t, op_inc ra s2 = .ok t → t.ram = s2.ram) ∧
    (∀ ra rb s2 t, op_mul ra rb s2 = .ok t → t.ram = s2.ram) ∧
    (∀ s2 r sp v t, s2.reg.length = 8 → s2.ram.length = 256 →
      0 ≤ r → r < 8 → r ≠ 7 → pyGet s2.reg 7 = some sp →
      pyGet s2.reg r = some v → 0 ≤ v → v ≤ 255 →
      (∀ x ∈ s2.ram, 0 ≤ x ∧ x ≤ 255) →
      op_push r s2 = .ok t → ∀ x ∈ t.ram, 0 ≤ x ∧ x ≤ 255) ∧
    (∀ s2 r sp t, s2.reg.length = 8 → s2.ram.length = 256 →
      0 ≤ r → r < 8 → pyGet s2.reg 7 = some sp →
      0 ≤ s2.pc + 2 → s2.pc + 2 ≤ 255 →
      (∀ x ∈ s2.ram, 0 ≤ x ∧ x ≤ 255) →
      op_call r s2 = .ok t → ∀ x ∈ t.ram, 0 ≤ x ∧ x ≤ 255) := by
  refine ⟨?_,
    fun s2 t ht => (pok_elim (frame_hlt s2) ht).2.1,
    fun ra rb s2 t ht => (pok_elim (frame_ld ra rb s2) ht).1,
    fun r i s2 t ht => (pok_elim (frame_ldi r i s2) ht).1,
    fun s2 t ht => by rw [pok_elim (frame_nop s2) ht],
    fun r s2 t ht => (pok_elim (frame_pop r s2) ht).1,
    fun r s2 t ht => by rw [pok_elim (frame_prn r s2) ht],
    fun r s2 t ht => (pok_elim (frame_jeq r s2) ht).2.1,
    fun r s2 t ht => (pok_elim (frame_jge r s2) ht).2.1,
    fun r s2 t ht => (pok_elim (frame_jgt r s2) ht).2.1,
    fun r s2 t ht => (pok_elim (frame_jle r s2) ht).2.1,
    fun r s2 t ht => (pok_elim (frame_jlt r s2) ht).2.1,
    fun r s2 t ht => (pok_elim (frame_jmp r s2) ht).2.1,
    fun r s2 t ht => (pok_elim (frame_jne r s2) ht).2.1,
    fun s2 t ht => (pok_elim (frame_ret s2) ht).1,
    fun ra rb s2 t ht => (pok_elim (frame_add ra rb s2) ht).1,
    fun ra rb s2 t ht => (pok_elim (frame_and ra rb s2) ht).1,
    fun ra rb s2 t ht => (pok_elim (frame_cmp ra rb s2) ht).2.1,
    fun ra s2 t ht => (pok_elim (frame_dec ra s2) ht).1,
    fun ra s2 t ht => (pok_elim (frame_inc ra s2) ht).1,
    fun ra rb s2 t ht => (pok_elim (frame_mul ra rb s2) ht).1,
    ?_, ?_⟩
  · intro lines prog ram2 hparse hload
    refine loadLoop_range prog 0 (List.replicate 256 0) ram2 (parseLines_range hparse)
      ?_ hload
    intro v hv
    rw [List.eq_of_mem_replicate hv]
    norm_num
  · intro s2 r sp v t h8 hram hr0 hr8 hne hsp hv hv0 hv255 hmem hpush
    rw [push_spec h8 hram hr0 hr8 hne hsp hv] at hpush
    cases hpush
    intro x hx
    rcases List.mem_or_eq_of_mem_set hx with hx2 | rfl
    · exact hmem x hx2
    · exact ⟨hv0, hv255⟩
  · intro s2 r sp t h8 hram hr0 hr8 hsp hpc0 hpc255 hmem hcall
    obtain ⟨w, hw⟩ : ∃ w, pyGet (s2.reg.set 7 (clampVal (sp - 1))) r = some w := by
      refine pyGet_total hr0 ?_
      rw [List.length_set, h8]
      exact_mod_cast hr8
    rw [call_spec h8 hram hr0 hr8 hsp hw] at hcall
    cases hcall
    intro x hx
    rcases List.mem_or_eq_of_mem_set hx with hx2 | rfl
    · exact hmem x hx2
    · exact ⟨hpc0, hpc255⟩

/-- Every key of the dispatch table is a nonnegative byte. -/
lemma opLookup_key_nonneg {key : Int} {hd : OpHandler} (h : opLookup key = .ok hd) :
    0 ≤ key := by
  unfold opLookup at h
  cases hfind : op_table.find? (fun p => p.1 == key) with
  | none => rw [hfind] at h; cases h
  | some p =>
    have hkey := List.find?_some hfind
    have hmem : p ∈ op_table := List.mem_of_find?_eq_some hfind
    have hk : p.1 = key := by
      simp only [beq_iff_eq] at hkey
      exact hkey
    subst hk
    simp only [op_table, List.mem_cons, List.not_mem_nil, or_false] at hmem
    rcases hmem with rfl | rfl | rfl | rfl | rfl | rfl | rfl | rfl | rfl | rfl | rfl
      | rfl | rfl | rfl | rfl | rfl | rfl | rfl | rfl | rfl | rfl | rfl <;> decide

/-- C9: the generic ALU entry point adds `reg[reg_b]` into `reg[reg_a]` for
the operation name "ADD" and raises `Unsupported ALU operation` for every
other name; no opcode handler routes through it, so neither the cycle body
nor the run loop can ever surface that exception. -/
theorem alu_generic_entry (op : String) (a b va vb : Int) (s : CPU) (n : Nat)
    (hop : op ≠ "ADD") (ha0 : 0 ≤ a) (ha8 : a < (s.reg.length : Int))
    (hva : pyGet s.reg a = some va) (hvb : pyGet s.reg b = some vb) :
    alu "ADD" a b s = .ok { s with reg := s.reg.set a.toNat (va + vb) } ∧
    alu op a b s = .error "Unsupported ALU operation" ∧
    step s ≠ .error "Unsupported ALU operation" ∧
    runFuel n s ≠ .error "Unsupported ALU operation" := by
  refine ⟨?_, ?_, ?_, ?_⟩
  · simp only [alu, if_pos rfl, pyGetE_ok hva, pyGetE_ok hvb, exbind_ok,
      setRegE_valid (va + vb) ha0 ha8]
    rw [if_pos trivial]
  · simp only [alu, if_neg hop]
  · intro h
    have := errin_elim (step_err s) h
    simp only [List.mem_cons, List.not_mem_nil, or_false] at this
    rcases this with h2 | h2 <;> exact absurd h2 (by decide)
  · intro h
    have := errin_elim (runFuel_err n s) h
    simp only [List.mem_cons, List.not_mem_nil, or_false] at this
    rcases this with h2 | h2 <;> exact absurd h2 (by decide)

/-- C9 witness -/
theorem alu_generic_entry_witness :
    alu "ADD" 0 1 w1 = .ok { w1 with reg := w1.reg.set (0 : Int).toNat (5 + 9) } ∧
    alu "SUB" 0 1 w1 = .error "Unsupported ALU operation" ∧
    step w1 ≠ .error "Unsupported ALU operation" ∧
    runFuel 1 w1 ≠ .error "Unsupported ALU operation" :=
  alu_generic_entry "SUB" 0 1 5 9 w1 1 (by decide) (by decide) (by decide) (by decide)
    (by decide)

/-- C10: for every opcode in the dispatch table, the key's top two bits
(`key >> 6`) equal the number of operand parameters of the registered
handler, and consequently the cycle body can never raise the `TypeError` of
an operand-count mismatch. -/
theorem dispatch_key_encodes_arity (key : Int) (hd : OpHandler) (s : CPU)
    (hk : opLookup key = .ok hd) :
    Int.ediv key 64 = (hd.arity : Int) ∧ step s ≠ .error "TypeError" := by
  constructor
  · have h1 := opLookup_arity hk
    have h2 := opLookup_key_nonneg hk
    have h3 : 0 ≤ Int.ediv key 64 := Int.ediv_nonneg h2 (by norm_num)
    omega
  · intro h
    have := errin_elim (step_err s) h
    simp only [List.mem_cons, List.not_mem_nil, or_false] at this
    rcases this with h2 | h2 <;> exact absurd h2 (by decide)

/-- C10 witness -/
theorem dispatch_key_encodes_arity_witness :
    Int.ediv 0x50 64 = ((OpHandler.h1 op_call).arity : Int) ∧
    step w1 ≠ .error "TypeError" :=
  dispatch_key_encodes_arity 0x50 (.h1 op_call) w1 rfl
